import Mathlib

/-!
Verification development for the OCR-based card extractor
(`scripts/extractor_ocr.py`).  Python string/regex primitives are embedded
over `List Char` (ASCII model); each embedded definition mirrors one Python
function of the source, keeping its name where Lean allows it.
-/

namespace Rygo

abbrev Chars := List Char

/-- Python whitespace characters (`str.strip`, `\s`), ASCII model. -/
def isPySpace (c : Char) : Bool :=
  c = ' ' || c = '\t' || c = '\n' || c = '\r' || c = '\x0b' || c = '\x0c'

/-- ASCII decimal digit (`str.isdigit`, `\d`, ASCII model). -/
def isPyDigit (c : Char) : Bool := '0' ≤ c && c ≤ '9'

def isAsciiUpper (c : Char) : Bool := 'A' ≤ c && c ≤ 'Z'

def isAsciiLowerAlpha (c : Char) : Bool := 'a' ≤ c && c ≤ 'z'

def isAsciiAlpha (c : Char) : Bool := isAsciiUpper c || isAsciiLowerAlpha c

def isAsciiAlnum (c : Char) : Bool := isAsciiAlpha c || isPyDigit c

/-- Python `\w` (word character), ASCII model. -/
def isPyWord (c : Char) : Bool := isAsciiAlnum c || c = '_'

/-- ASCII lowercasing (`str.lower`, `re.IGNORECASE` folding, ASCII model). -/
def asciiLower (c : Char) : Char :=
  if isAsciiUpper c then Char.ofNat (c.toNat + 32) else c

def pyLower (s : Chars) : Chars := s.map asciiLower

def lstripBy (p : Char → Bool) (s : Chars) : Chars := s.dropWhile p

def rstripBy (p : Char → Bool) (s : Chars) : Chars :=
  (s.reverse.dropWhile p).reverse

/-- Python `str.strip()` (no argument). -/
def pyStrip (s : Chars) : Chars := rstripBy isPySpace (lstripBy isPySpace s)

/-- Python `str.strip(chars)` for a single character. -/
def stripChar (c : Char) (s : Chars) : Chars :=
  rstripBy (· = c) (lstripBy (· = c) s)

/-- Python `str.rstrip('+')`. -/
def rstripPlus (s : Chars) : Chars := rstripBy (· = '+') s

/-- Python `str.isdigit()` (ASCII model): nonempty and all digits. -/
def isDigits (s : Chars) : Bool := !s.isEmpty && s.all isPyDigit

/-- Python `int(...)` on a digit string. -/
def toNatDigits (s : Chars) : Nat :=
  s.foldl (fun acc c => 10 * acc + (c.toNat - '0'.toNat)) 0

/-- `c in s` for a character. -/
def hasChar (c : Char) (s : Chars) : Bool := s.contains c

/-- `needle in hay` (substring containment). -/
def hasSub (needle : Chars) : Chars → Bool
  | [] => needle.isEmpty
  | c :: rest => needle.isPrefixOf (c :: rest) || hasSub needle rest

/-- Python `s.split(sep)` for a single-character separator: every piece kept,
empty pieces included. -/
def splitAll (sep : Char) : Chars → List Chars
  | [] => [[]]
  | c :: rest =>
    if c = sep then [] :: splitAll sep rest
    else match splitAll sep rest with
      | [] => [[c]]
      | piece :: pieces => (c :: piece) :: pieces

/-- Python `s.split(sep, 1)`: the part before the first separator and the
part after it, when the separator occurs. -/
def splitOnce (sep : Char) : Chars → Option (Chars × Chars)
  | [] => none
  | c :: rest =>
    if c = sep then some ([], rest)
    else (splitOnce sep rest).map (fun p => (c :: p.1, p.2))

def startsWith (p s : Chars) : Bool := p.isPrefixOf s

def endsWith (p s : Chars) : Bool := p.reverse.isPrefixOf s.reverse

/-- Python `str.replace(old, new)`: non-overlapping, left to right.  The
fuel argument only bounds the recursion (each step consumes at least one
character, so `s.length` steps suffice); it never runs out. -/
def pyReplaceGo (old new : Chars) : Nat → Chars → Chars
  | _, [] => []
  | 0, s => s
  | fuel + 1, c :: rest =>
    if old ≠ [] ∧ old.isPrefixOf (c :: rest) then
      new ++ pyReplaceGo old new fuel ((c :: rest).drop old.length)
    else
      c :: pyReplaceGo old new fuel rest

def pyReplace (old new : Chars) (s : Chars) : Chars :=
  pyReplaceGo old new s.length s

/-- Python `str.split()` with no argument: split on whitespace runs,
no empty pieces. -/
def pySplitWs (s : Chars) : List Chars :=
  let rec go : Chars → Chars → List Chars
    | [], acc => if acc.isEmpty then [] else [acc.reverse]
    | c :: rest, acc =>
      if isPySpace c then
        if acc.isEmpty then go rest [] else acc.reverse :: go rest []
      else go rest (c :: acc)
  go s []

/-- Python `str.title()` (ASCII model): a letter after a non-letter is
uppercased, a letter after a letter is lowercased. -/
def pyTitle (s : Chars) : Chars :=
  let rec go : Chars → Bool → Chars
    | [], _ => []
    | c :: rest, prevAlpha =>
      let c' := if isAsciiAlpha c then
          (if prevAlpha then asciiLower c
           else if isAsciiLowerAlpha c then Char.ofNat (c.toNat - 32) else c)
        else c
      c' :: go rest (isAsciiAlpha c)
  go s false

/-- Python `str.splitlines()` restricted to `\n`, `\r`, `\r\n`. -/
def pySplitlines : Chars → List Chars
  | [] => []
  | s =>
    let rec go : Chars → Chars → List Chars
      | [], acc => [acc.reverse]
      | '\r' :: '\n' :: rest, acc => acc.reverse :: go rest []
      | '\r' :: rest, acc => acc.reverse :: go rest []
      | '\n' :: rest, acc => acc.reverse :: go rest []
      | c :: rest, acc => go rest (c :: acc)
    go s []

/-- A final `splitlines` artifact: Python yields no piece for the text after a
terminal newline; `go` above always closes its accumulator, so drop a last
empty piece exactly when the text ends in a line break. -/
def pySplitlinesFix (s : Chars) : List Chars :=
  match pySplitlines s with
  | [] => []
  | ls =>
    if s ≠ [] && (s.getLast? = some '\n' || s.getLast? = some '\r') then
      ls.dropLast
    else ls

-- -----------------------------------------------------------------
-- parse_acc / parse_strength / parse_toughness_value
-- -----------------------------------------------------------------

/-- One component of an accuracy value: a number, or one of the sentinel
strings. -/
inductive AccPart where
  | num (n : Nat)
  | sent (s : String)
deriving Repr, DecidableEq

/-- Result of `parse_acc`: a single component or a stationary/moving pair. -/
inductive AccVal where
  | single (p : AccPart)
  | pair (stationary moving : AccPart)
deriving Repr, DecidableEq

/-- The per-part logic of `parse_acc`'s slash branch (extractor_ocr.py
lines 136-152). -/
def parseAccSlashPart (part : Chars) : Option AccPart :=
  let part := pyStrip part
  if pyLower part = "xx".data || pyLower part = "x".data then some (.sent "xx")
  else if part = "++".data then some (.sent "++")
  else if part = "*".data then some (.sent "*")
  else
    let part := rstripPlus part
    if isDigits part then some (.num (toNatDigits part)) else none

/-- The slash-branch loop of `parse_acc` (first failing part aborts). -/
def parseAccParts : List Chars → Option (List AccPart)
  | [] => some []
  | p :: rest =>
    match parseAccSlashPart p, parseAccParts rest with
    | some a, some l => some (a :: l)
    | _, _ => none

/-- `parse_acc` (extractor_ocr.py lines 118-168). -/
def parse_acc (s : String) : Option AccVal :=
  let acc := pyStrip s.data
  if acc.isEmpty then none
  else if pyLower acc = "xx".data || pyLower acc = "x".data then
    some (.single (.sent "xx"))
  else if acc = "++".data then some (.single (.sent "++"))
  else if acc = "*".data then some (.single (.sent "*"))
  else if hasChar '/' acc then
    match parseAccParts (splitAll '/' acc) with
    | some [a, b] => some (.pair a b)
    | some [a] => some (.single a)
    | _ => none
  else
    let acc := if endsWith "+".data acc then rstripPlus acc else acc
    if isDigits acc then some (.single (.num (toNatDigits acc))) else none

/-- One component of a parsed strength pair. -/
inductive StrPart where
  | num (n : Nat)
  | str (s : String)
deriving Repr, DecidableEq

/-- Result of `parse_strength`: a single component, a normal/halfRange pair,
or a string returned as-is (dice notation, trailing-plus single values). -/
inductive StrengthVal where
  | part (p : StrPart)
  | pair (normal halfRange : StrPart)
  | str (s : String)
deriving Repr, DecidableEq

/-- The per-part logic of `parse_strength`'s slash branch (lines 186-195);
the `endswith('+')` arm is kept although `rstrip('+')` makes it dead. -/
def parseStrengthSlashPart (part : Chars) : Option StrPart :=
  let part := rstripPlus (pyStrip part)
  if isDigits part then some (.num (toNatDigits part))
  else if endsWith "+".data part then some (.str (String.mk part))
  else none

/-- The slash-branch loop of `parse_strength`. -/
def parseStrengthParts : List Chars → Option (List StrPart)
  | [] => some []
  | p :: rest =>
    match parseStrengthSlashPart p, parseStrengthParts rest with
    | some a, some l => some (a :: l)
    | _, _ => none

/-- `^\[D(\d+)\]$` (the dice-notation check of `parse_strength`). -/
def isDiceNotation (s : Chars) : Bool :=
  startsWith "[D".data s && endsWith "]".data s &&
    isDigits ((s.drop 2).dropLast)

/-- `parse_strength` (extractor_ocr.py lines 171-212). -/
def parse_strength (s : String) : Option StrengthVal :=
  if s.data.isEmpty then none
  else
    let sv := pyStrip s.data
    if isDiceNotation sv then some (.str (String.mk sv))
    else if hasChar '/' sv then
      match parseStrengthParts (splitAll '/' sv) with
      | some [a, b] => some (.pair a b)
      | some [a] => some (.part a)
      | _ => none
    else if endsWith "+".data sv then some (.str (String.mk sv))
    else if isDigits sv then some (.part (.num (toNatDigits sv)))
    else none

-- -----------------------------------------------------------------
-- A small regex engine with Python `re` semantics (backtracking
-- priority, greedy/lazy repetition, capture groups, `\b`, `$`,
-- IGNORECASE folding).  Repetition constructs are either over a
-- character class (`rep`) or a non-empty-progress star (`starNE`);
-- every pattern of the source fits this shape.
-- -----------------------------------------------------------------

/-- Regular expressions, transliterated from the source's patterns. -/
inductive RE where
  | eps
  | lit (s : String) (ci : Bool)
  | cls (p : Char → Bool)
  | rep (p : Char → Bool) (lo : Nat) (lzy : Bool)
  | starNE (a : RE)
  | seq (a b : RE)
  | alt (a b : RE)
  | opt (a : RE)
  | grp (i : Nat) (a : RE)
  | look (a : RE)
  | bnd
  | eol

/-- Captures: group index paired with captured text, most recent first. -/
abbrev Caps := List (Nat × Chars)

/-- A partial-match state: last consumed character (for `\b`), remaining
input, captures. -/
abbrev MState := Option Char × Chars × Caps

def charMatches (ci : Bool) (pat c : Char) : Bool :=
  if ci then asciiLower pat = asciiLower c else pat = c

def litStep (ci : Bool) : Chars → Option Char → Chars → Option (Option Char × Chars)
  | [], prev, s => some (prev, s)
  | _ :: _, _, [] => none
  | p :: ps, prev, c :: cs =>
    if charMatches ci p c then litStep ci ps (some c) cs else none

/-- One Kleene-star layer that requires progress in every iteration
(matching Python's stop-on-empty-iteration rule); greedy: longer
continuations first.  Each iteration strictly shrinks the input, so fuel
equal to the input length is exact: at fuel 0 the input is empty and the
filter below is empty anyway. -/
def starLoop (f : Option Char → Chars → Caps → List MState) :
    Nat → Option Char → Chars → Caps → List MState
  | 0, prev, s, caps => [(prev, s, caps)]
  | fuel + 1, prev, s, caps =>
    (((f prev s caps).filter (fun r => r.2.1.length < s.length)).flatMap
      (fun r => starLoop f fuel r.1 r.2.1 r.2.2)) ++ [(prev, s, caps)]

/-- All ways a regex can match a prefix of the input, in Python
backtracking priority order (first element = the match Python reports). -/
def matchAll : RE → Option Char → Chars → Caps → List MState
  | .eps, prev, s, caps => [(prev, s, caps)]
  | .lit str ci, prev, s, caps =>
    match litStep ci str.data prev s with
    | some (prev', rest) => [(prev', rest, caps)]
    | none => []
  | .cls p, prev, s, caps =>
    match s with
    | [] => []
    | c :: rest => if p c then [(some c, rest, caps)] else []
  | .rep p lo lzy, prev, s, caps =>
    let run := s.takeWhile p
    let n := run.length
    if n < lo then []
    else
      let prevAt := fun i => if i = 0 then prev else (run.get? (i - 1)).orElse (fun _ => prev)
      let lens := if lzy then (List.range (n + 1 - lo)).map (fun k => lo + k)
                  else (List.range (n + 1 - lo)).map (fun k => n - k)
      lens.map (fun i => (prevAt i, s.drop i, caps))
  | .starNE a, prev, s, caps => starLoop (matchAll a) s.length prev s caps
  | .seq a b, prev, s, caps =>
    (matchAll a prev s caps).flatMap (fun r => matchAll b r.1 r.2.1 r.2.2)
  | .alt a b, prev, s, caps => matchAll a prev s caps ++ matchAll b prev s caps
  | .opt a, prev, s, caps => matchAll a prev s caps ++ [(prev, s, caps)]
  | .grp i a, prev, s, caps =>
    (matchAll a prev s caps).map
      (fun r => (r.1, r.2.1, (i, s.take (s.length - r.2.1.length)) :: r.2.2))
  | .look a, prev, s, caps =>
    if (matchAll a prev s caps).isEmpty then [] else [(prev, s, caps)]
  | .bnd, prev, s, caps =>
    let left := match prev with | some c => isPyWord c | none => false
    let right := match s with | c :: _ => isPyWord c | [] => false
    if left ≠ right then [(prev, s, caps)] else []
  | .eol, prev, s, caps =>
    if s = [] || s = ['\n'] then [(prev, s, caps)] else []

/-- `re.Pattern.match` at a given left context: captures (group 0 included)
and the rest of the input after the match. -/
def reMatchAt (r : RE) (prev : Option Char) (s : Chars) : Option (Caps × Chars) :=
  match matchAll r prev s [] with
  | [] => none
  | (_, rest, caps) :: _ => some ((0, s.take (s.length - rest.length)) :: caps, rest)

/-- `re.Pattern.match`. -/
def reMatch (r : RE) (s : Chars) : Option (Caps × Chars) := reMatchAt r none s

def reTest (r : RE) (s : Chars) : Bool := (reMatch r s).isSome

/-- `re.Pattern.search`: try each start position left to right (fuel is
the number of start positions left to try; `s.length + 1` covers them
all). -/
def reSearchAux (r : RE) : Nat → Option Char → Chars → Chars → Option (Chars × Caps × Chars)
  | 0, _, _, _ => none
  | fuel + 1, prev, preRev, s =>
    match reMatchAt r prev s with
    | some (caps, rest) => some (preRev.reverse, caps, rest)
    | none =>
      match s with
      | [] => none
      | c :: cs => reSearchAux r fuel (some c) (c :: preRev) cs

def reSearch (r : RE) (s : Chars) : Option (Chars × Caps × Chars) :=
  reSearchAux r (s.length + 1) none [] s

def reSearchTest (r : RE) (s : Chars) : Bool := (reSearch r s).isSome

/-- Group lookup: `None` for a group that did not participate. -/
def capOpt (caps : Caps) (i : Nat) : Option Chars :=
  (caps.find? (fun p => p.1 = i)).map Prod.snd

/-- Group lookup with a default (for groups that always participate). -/
def capStr (caps : Caps) (i : Nat) : Chars := (capOpt caps i).getD []

/-- Python truthiness of `m.groupdict().get(g)`: `None` and `""` both
falsy. -/
def capTruthy (caps : Caps) (i : Nat) : Option Chars :=
  match capOpt caps i with
  | some v => if v.isEmpty then none else some v
  | none => none

/-- A piece of a `re.sub` replacement template. -/
inductive Repl where
  | lit (s : String)
  | grp (i : Nat)

def applyRepl (caps : Caps) : List Repl → Chars
  | [] => []
  | .lit s :: rest => s.data ++ applyRepl caps rest
  | .grp i :: rest => capStr caps i ++ applyRepl caps rest

/-- `re.sub`: replace every non-overlapping leftmost match (fuel bounds
the step count; each step consumes at least one character, so
`s.length + 1` steps suffice). -/
def reSubAux (r : RE) (tmpl : List Repl) : Nat → Option Char → Chars → Chars
  | 0, _, s => s
  | fuel + 1, prev, s =>
    match reMatchAt r prev s with
    | some (caps, rest) =>
      if rest.length < s.length then
        applyRepl caps tmpl ++
          reSubAux r tmpl fuel
            ((s.take (s.length - rest.length)).getLast? |>.orElse (fun _ => prev)) rest
      else
        applyRepl caps tmpl ++
          (match s with
           | [] => []
           | c :: cs => c :: reSubAux r tmpl fuel (some c) cs)
    | none =>
      match s with
      | [] => []
      | c :: cs => c :: reSubAux r tmpl fuel (some c) cs

def reSub (r : RE) (tmpl : List Repl) (s : Chars) : Chars :=
  reSubAux r tmpl (s.length + 1) none s

/-- Right fold of a pattern list into a sequence. -/
def reSeq (l : List RE) : RE := l.foldr .seq .eps

/-- Right fold of a pattern list into an alternation (first preferred). -/
def reAlts : List RE → RE
  | [] => .eps
  | [r] => r
  | r :: rest => .alt r (reAlts rest)

-- Character classes used by the source's patterns.
def ccDigit : Char → Bool := isPyDigit
def ccSpace : Char → Bool := isPySpace
def ccNonSpace : Char → Bool := fun c => !isPySpace c
def ccAnyNoNL : Char → Bool := fun c => c ≠ '\n'
def ccNonComma : Char → Bool := fun c => c ≠ ','
def ccNonParenR : Char → Bool := fun c => c ≠ ')'
def ccNonSlashComma : Char → Bool := fun c => c ≠ '/' && c ≠ ','
def ccNonCommaSpace : Char → Bool := fun c => c ≠ ',' && !isPySpace c
def ccWord : Char → Bool := isPyWord

-- -----------------------------------------------------------------
-- The compiled patterns of extractor_ocr.py.
-- -----------------------------------------------------------------

/-- `\s*` -/
def reWS : RE := .rep ccSpace 0 false

/-- `\s*,?\s*` -/
def reOptComma : RE := reSeq [reWS, .opt (.lit "," true), reWS]

/-- `\s*,\s*` -/
def reCommaSp : RE := reSeq [reWS, .lit "," true, reWS]

/-- `\d+(?:/\d+)?` (the points token). -/
def rePtsTok : RE :=
  reSeq [.rep ccDigit 1 false, .opt (reSeq [.lit "/" true, .rep ccDigit 1 false])]

/-- `HEADER_RE = ^(?P<name>.+?)\s*-\s*(?P<pts>\d+(?:/\d+)?)\s*pts$`,
IGNORECASE (line 852); name = group 1, pts = group 2. -/
def HEADER_RE : RE :=
  reSeq [.grp 1 (.rep ccAnyNoNL 1 true), reWS, .lit "-" true, reWS,
         .grp 2 rePtsTok, reWS, .lit "pts" true, .eol]

/-- `[SWCMLH]` under IGNORECASE. -/
def ccClassFlag : Char → Bool := fun c =>
  let l := asciiLower c
  l = 's' || l = 'w' || l = 'c' || l = 'm' || l = 'l' || l = 'h'

/-- `[S$]` under IGNORECASE. -/
def ccSDollar : Char → Bool := fun c => asciiLower c = 's' || c = '$'

/-- `STAT_RE` (lines 854-870), IGNORECASE.  Groups: 1 unitType, 2 classFlag,
3 height, 4 spot, 5 move, 6 quality, 7 tfront, 8 tside, 9 trear,
10 evasion, 11 command, 12 tail. -/
def STAT_RE : RE :=
  reSeq [
    .grp 1 (reAlts [.lit "Inf" true, .lit "Vec" true, .lit "Air" true]),
    .opt (reSeq [reWS, .lit "(" true,
                 .grp 2 (reAlts [.rep ccClassFlag 1 false, .lit "CAP" true, .lit "CAS" true]),
                 .lit ")" true]),
    .opt reCommaSp,
    .opt (reSeq [.lit "H" true, .grp 3 (.rep ccDigit 1 false)]),
    .opt reCommaSp,
    .opt (reSeq [.cls ccSDollar, .grp 4 (.rep ccDigit 1 false), .lit "\"" true]),
    .opt reCommaSp,
    .lit "M" true, .grp 5 (reAlts [.rep ccDigit 1 false, .lit "O" true]), .lit "\"" true,
    .opt reCommaSp,
    .lit "Q" true, .grp 6 (reAlts [.rep ccDigit 1 false, .lit "*" true]),
    .opt (reSeq [reCommaSp, .lit "T" true, .grp 7 (.rep ccNonSlashComma 1 false),
                 .opt (reSeq [.lit "/" true, .grp 8 (.rep ccNonSlashComma 1 false),
                              .lit "/" true, .grp 9 (.rep ccNonCommaSpace 1 false)])]),
    .opt (reSeq [reCommaSp, .lit "E" true, .grp 10 (.rep ccDigit 1 false)]),
    .opt (reSeq [reCommaSp, .lit "C" true, .grp 11 (.rep ccDigit 1 false)]),
    .opt (reSeq [reWS, .opt (.lit "," true), reWS, .grp 12 (.rep ccAnyNoNL 0 false)]),
    .eol]

/-- `[0-9A-Z]` -/
def ccCode0 : Char → Bool := fun c => isPyDigit c || isAsciiUpper c

/-- `[0-9A-Z\-]` -/
def ccCode1 : Char → Bool := fun c => isPyDigit c || isAsciiUpper c || c = '-'

/-- `WEAPON_NAME_RE` (lines 876-880), no flags.  Three anchored
alternatives; groups 1 (code) and 2 (name) in the first. -/
def WEAPON_NAME_RE : RE :=
  reAlts [
    reSeq [.look (reSeq [.rep ccNonSpace 0 false, .cls ccDigit]),
           .grp 1 (reSeq [.cls ccCode0, .rep ccCode1 0 false]),
           .rep ccSpace 1 false, .grp 2 (.rep ccAnyNoNL 1 false), .eol],
    reSeq [.cls isAsciiUpper, .rep isAsciiAlpha 1 false, .rep ccSpace 1 false,
           .rep ccAnyNoNL 0 false, .rep ccDigit 1 false, .opt (.lit "." false),
           .rep ccDigit 0 false, reWS, .lit "mm" false, .rep ccAnyNoNL 0 false, .eol],
    reSeq [.lit ">" false, reWS, .rep ccAnyNoNL 1 false, .eol]]

/-- `PROFILE_RE` (lines 881-890), IGNORECASE.  Groups: 1 target, 2 range,
3 acc, 4 str, 5 dmg, 6 ammo, 7 trailing. -/
def PROFILE_RE : RE :=
  reSeq [
    .opt (.grp 1 (reAlts [.lit "All" true, .lit "Inf" true, .lit "Vec" true,
                          .lit "Air" true, .lit "Gnd" true, .lit "Inf/Vec" true,
                          .lit "Inf/Vec" true])),
    reOptComma,
    .lit "R" true,
    .grp 2 (reAlts [.rep ccDigit 1 false, .lit "O" true, .lit "e" true,
                    .lit "eo" true, .lit "o" true, .lit "4o" true]),
    .lit "\"" true, reOptComma,
    .lit "A" true, .grp 3 (.rep ccNonComma 1 false), reOptComma,
    .opt (reSeq [.lit "S" true, .grp 4 (.rep ccNonComma 1 false), reOptComma]),
    .lit "D" true, .grp 5 (.rep ccDigit 1 false),
    .opt (reSeq [reOptComma, .lit "Ammo" true, reWS, .grp 6 (.rep ccDigit 1 false)]),
    .opt (reSeq [reOptComma, .grp 7 (.rep ccAnyNoNL 0 false)]),
    .eol]

/-- `PROFILE_DETECT_RE` (lines 893-896), IGNORECASE, used with `search`. -/
def PROFILE_DETECT_RE : RE :=
  reSeq [
    .opt (reAlts [.lit "All" true, .lit "Inf" true, .lit "Vec" true,
                  .lit "Air" true, .lit "Gnd" true, .lit "Inf/Vec" true]),
    reOptComma, .lit "R" true, .rep ccDigit 1 false, .lit "\"" true, reOptComma,
    .lit "A" true, .rep ccNonComma 1 false, reOptComma,
    .opt (reSeq [.lit "S" true, .rep ccNonComma 1 false, reOptComma]),
    .lit "D" true, .rep ccDigit 1 false]

/-- `FOOTER_NOISE_RE` (line 898), IGNORECASE, used with `search`. -/
def FOOTER_NOISE_RE : RE :=
  reAlts [reSeq [.bnd, .lit "FIRELOCK" true, .bnd],
          reSeq [.bnd, .lit "M.D.C." true, .bnd],
          .lit "FEDERAL STATES-ARMY" true,
          .lit "DREKFORT" true]

/-- `^(Inf|Vec|Air)$` (lines 962, 1114, 1224), no flags. -/
def UNIT_TYPE_ONLY_RE : RE :=
  reSeq [.grp 1 (reAlts [.lit "Inf" false, .lit "Vec" false, .lit "Air" false]), .eol]

/-- `[SWCML]` (exact case; the merge check has no `H`). -/
def ccSWCML : Char → Bool := fun c =>
  c = 'S' || c = 'W' || c = 'C' || c = 'M' || c = 'L'

/-- `^\([SWCML]+|CAP|CAS\)` (line 964), no flags; the alternation covers the
whole pattern, so the three branches are as written. -/
def CLASSFLAG_SPLIT_RE : RE :=
  reAlts [reSeq [.lit "(" false, .rep ccSWCML 1 false],
          .lit "CAP" false,
          reSeq [.lit "CAS" false, .lit ")" false]]

/-- `^[A-Z][a-z]+(?:\s+[A-Z][a-z]+)*(?:,.*)?$` (line 991), no flags. -/
def SPECIAL_RULE_SHAPE_RE : RE :=
  reSeq [.cls isAsciiUpper, .rep isAsciiLowerAlpha 1 false,
         .starNE (reSeq [.rep ccSpace 1 false, .cls isAsciiUpper,
                         .rep isAsciiLowerAlpha 1 false]),
         .opt (reSeq [.lit "," false, .rep ccAnyNoNL 0 false]), .eol]

/-- `^_+$` (lines 791, 1232, ...), no flags. -/
def UNDERSCORE_RE : RE := reSeq [.rep (fun c => c = '_') 1 false, .eol]

/-- `,\s*At\+` (line 1030), no flags, used with `search`. -/
def AT_PLUS_DETECT_RE : RE := reSeq [.lit "," false, reWS, .lit "At+" false]

/-- `(,\s*)At(\+)` (line 1031), no flags, used with `sub` `\1A\2`. -/
def AT_PLUS_FIX_RE : RE :=
  reSeq [.grp 1 (reSeq [.lit "," false, reWS]), .lit "At" false,
         .grp 2 (.lit "+" false)]

/-- `(\d+)\s*pts` (line 1065), IGNORECASE, used with `search`. -/
def PTS_SEARCH_RE : RE :=
  reSeq [.grp 1 (.rep ccDigit 1 false), reWS, .lit "pts" true]

/-- `^\s*-\s*(\d+(?:/\d+)?)\s*pts\s*$` (line 1075), IGNORECASE. -/
def DASH_PTS_RE : RE :=
  reSeq [reWS, .lit "-" true, reWS, .grp 1 rePtsTok, reWS, .lit "pts" true,
         reWS, .eol]

/-- `^(.+?)\s*-\s*(\d+(?:/\d+)?)\s*$` (line 1088), no flags. -/
def NAME_DASH_PTS_RE : RE :=
  reSeq [.grp 1 (.rep ccAnyNoNL 1 true), reWS, .lit "-" false, reWS,
         .grp 2 rePtsTok, reWS, .eol]

/-- `(?=\S*\d)[0-9A-Z][0-9A-Z\-]*\s+\S+` (line 1264), no flags, `search`. -/
def WEAPON_CODE_SEARCH_RE : RE :=
  reSeq [.look (reSeq [.rep ccNonSpace 0 false, .cls ccDigit]),
         .cls ccCode0, .rep ccCode1 0 false, .rep ccSpace 1 false,
         .rep ccNonSpace 1 false]

/-- `^Ammo\s+(\d+)$` (line 1565), IGNORECASE. -/
def AMMO_LINE_RE : RE :=
  reSeq [.lit "Ammo" true, .rep ccSpace 1 false, .grp 1 (.rep ccDigit 1 false), .eol]

/-- `\s*Ammo\s+\d+\s*` (line 1503), IGNORECASE, used with `sub` of a space. -/
def AMMO_IN_NAME_RE : RE :=
  reSeq [reWS, .lit "Ammo" true, .rep ccSpace 1 false, .rep ccDigit 1 false, reWS]

/-- `(\d+mm)` (lines 1463, 1637, 1754, 1767), no flags, `search`. -/
def CALIBER_RE : RE := .grp 1 (reSeq [.rep ccDigit 1 false, .lit "mm" false])

/-- `^\([^)]+\)$` (merge_fragmented_rules, lines 384, 397, 400, 405). -/
def PAREN_ONLY_RE : RE :=
  reSeq [.lit "(" false, .rep ccNonParenR 1 false, .lit ")" false, .eol]

/-- `^[A-Z][a-z]+$` (line 396), no flags. -/
def CAP_WORD_RE : RE :=
  reSeq [.cls isAsciiUpper, .rep isAsciiLowerAlpha 1 false, .eol]

/-- `^\([0-9]+"?\)$` (lines 1723, 1812), no flags. -/
def RADIUS_RULE_RE : RE :=
  reSeq [.lit "(" false, .rep ccDigit 1 false, .opt (.lit "\"" false),
         .lit ")" false, .eol]

/-- `\s+` used with `sub` of a single space (line 1528). -/
def WS_PLUS_RE : RE := .rep ccSpace 1 false

/-- `\bRULE\b` for an embedded special-rule token (lines 1514-1525). -/
def embeddedRuleRE (rule : String) : RE := reSeq [.bnd, .lit rule false, .bnd]

/-- `\s*\bRULE\b\s*` used with `sub` of a space (lines 1516, 1525). -/
def embeddedRuleSubRE (rule : String) : RE :=
  reSeq [reWS, .bnd, .lit rule false, .bnd, reWS]

/-- `"([A-Z][A-Z\-]+)\?"` (clean_unit_name, line 82), no flags. -/
def NICK_Q_RE : RE :=
  reSeq [.lit "\"" false,
         .grp 1 (reSeq [.cls isAsciiUpper,
                        .rep (fun c => isAsciiUpper c || c = '-') 1 false]),
         .lit "?\"" false]

/-- `\?"` (clean_unit_name, line 86). -/
def Q_QUOTE_RE : RE := .lit "?\"" false

/-- `[^a-z0-9]+` (slugify, line 101), no flags. -/
def SLUG_RE : RE := .rep (fun c => !(isAsciiLowerAlpha c || isPyDigit c)) 1 false

-- -----------------------------------------------------------------
-- Helper functions of extractor_ocr.py.
-- -----------------------------------------------------------------

/-- `norm` (lines 67-74): curly quotes to straight quotes. -/
def norm (s : String) : String :=
  let t := pyReplace [Char.ofNat 0x201C] "\"".data s.data
  let t := pyReplace [Char.ofNat 0x201D] "\"".data t
  let t := pyReplace [Char.ofNat 0x2018] [Char.ofNat 0x27] t
  let t := pyReplace [Char.ofNat 0x2019] [Char.ofNat 0x27] t
  String.mk t

/-- `clean_unit_name` (lines 77-88). -/
def clean_unit_name (name : String) : String :=
  let cleaned := reSub NICK_Q_RE [.lit "\"", .grp 1, .lit "\""] name.data
  if cleaned = name.data then String.mk (reSub Q_QUOTE_RE [.lit "\""] name.data)
  else String.mk cleaned

/-- `slugify` (lines 91-104).  `unicodedata.normalize('NFKD', ...)` is a
standard-library collaborator, taken as the parameter `nfkd` (it is the
identity on ASCII text). -/
def slugify (nfkd : String → String) (s : String) : String :=
  let s1 := (nfkd s).data.filter (fun c => c.toNat < 128)
  let s2 := pyLower s1
  let s3 := reSub SLUG_RE [.lit "-"] s2
  String.mk (stripChar '-' s3)

/-- `dedupe_preserve_order` (lines 107-115). -/
def dedupeGo : List String → List String → List String
  | [], _ => []
  | x :: rest, seen =>
    if seen.contains x then dedupeGo rest seen else x :: dedupeGo rest (x :: seen)

def dedupe_preserve_order (items : List String) : List String := dedupeGo items []

/-- `split_rules_smart` (lines 339-366): split on commas outside
parentheses (the depth may go negative, as in the source). -/
def splitRulesGo : Chars → Int → Chars → List String
  | [], _, current =>
    let r := pyStrip current.reverse
    if r.isEmpty then [] else [String.mk r]
  | c :: rest, depth, current =>
    if c = '(' then splitRulesGo rest (depth + 1) (c :: current)
    else if c = ')' then splitRulesGo rest (depth - 1) (c :: current)
    else if c = ',' ∧ depth = 0 then
      let r := pyStrip current.reverse
      (if r.isEmpty then [] else [String.mk r]) ++ splitRulesGo rest depth []
    else splitRulesGo rest depth (c :: current)

def split_rules_smart (line : String) : List String := splitRulesGo line.data 0 []

/-- `merge_fragmented_rules` (lines 369-415); the accumulator is kept
reversed so that a lone parenthetical can be merged into the previous
rule. -/
def mergeFragGo : Nat → List String → List String → List String
  | 0, l, accRev => accRev.reverse ++ l
  | _ + 1, [], accRev => accRev.reverse
  | fuel + 1, rule :: rest, accRev =>
    if accRev ≠ [] ∧ reTest PAREN_ONLY_RE rule.data then
      mergeFragGo fuel rest ((accRev.headD "" ++ " " ++ rule) :: accRev.tail)
    else if rest ≠ [] then
      let next := rest.headD ""
      if ¬ endsWith ")".data rule.data ∧
          (reTest CAP_WORD_RE next.data ∨ reTest PAREN_ONLY_RE next.data) then
        if rest.tail ≠ [] ∧ reTest PAREN_ONLY_RE (rest.tail.headD "").data then
          mergeFragGo fuel rest.tail.tail
            ((rule ++ " " ++ next ++ " " ++ rest.tail.headD "") :: accRev)
        else if reTest PAREN_ONLY_RE next.data then
          mergeFragGo fuel rest.tail ((rule ++ " " ++ next) :: accRev)
        else mergeFragGo fuel rest (rule :: accRev)
      else mergeFragGo fuel rest (rule :: accRev)
    else mergeFragGo fuel rest (rule :: accRev)

def merge_fragmented_rules (rules : List String) : List String :=
  if rules.isEmpty then rules else mergeFragGo (rules.length + 1) rules []

/-- `fix_ocr_errors_contextual` (lines 592-644), substitution by
substitution in source order. -/
def fix_ocr_errors_contextual (s : String) : String :=
  let line := s.data
  let line := reSub (reSeq [.lit "$" false, .grp 1 (.rep ccDigit 1 false), .lit "\"" false])
    [.lit "S", .grp 1, .lit "\""] line
  let line := reSub (reSeq [.lit "$" false, .grp 1 (.rep ccDigit 1 false), .lit "/" false])
    [.lit "S", .grp 1, .lit "/"] line
  let line := reSub (reSeq [.lit "," false, reWS, .lit "$" false, .grp 1 (.rep ccDigit 1 false)])
    [.lit ", S", .grp 1] line
  let line := reSub (reSeq [.bnd, .lit "H" false, .grp 1 (.rep ccDigit 1 false)])
    [.lit "H", .grp 1] line
  let line := reSub (reSeq [.bnd, .lit "S" false, .grp 1 (.rep ccDigit 1 false), .lit "\"" false])
    [.lit "S", .grp 1, .lit "\""] line
  let line := reSub (reSeq [.bnd, .lit "M" false, .grp 1 (.rep ccDigit 1 false), .lit "\"" false])
    [.lit "M", .grp 1, .lit "\""] line
  let line := reSub (reSeq [.bnd, .lit "Q" false, .grp 1 (.rep ccDigit 1 false)])
    [.lit "Q", .grp 1] line
  let line := reSub (reSeq [.bnd, .lit "C" false, .grp 1 (.rep ccDigit 1 false)])
    [.lit "C", .grp 1] line
  let line := reSub (reSeq [.bnd, .lit "El" false, .bnd]) [.lit "E4"] line
  let line := reSub (reSeq [.bnd, .lit "EO" false, .bnd]) [.lit "E0"] line
  let line := reSub (reSeq [.bnd, .lit "E" false, .grp 1 (.cls (fun c => c = 'l' || c = 'O'))])
    [.lit "E", .grp 1] line
  let line := reSub (reSeq [.bnd, .lit "R" false, .grp 1 (.rep ccDigit 1 false), .lit "\"" false])
    [.lit "R", .grp 1, .lit "\""] line
  let line := reSub (reSeq [.bnd, .lit "A" false, .grp 1 (.rep ccDigit 1 false)])
    [.lit "A", .grp 1] line
  let line := reSub (reSeq [.bnd, .lit "D" false, .grp 1 (.rep ccDigit 1 false)])
    [.lit "D", .grp 1] line
  let line := reSub (.lit "Reo\"" false) [.lit "R40\""] line
  let line := reSub (.lit "R4o\"" false) [.lit "R40\""] line
  let line := reSub (.lit "Re\"" false) [.lit "R40\""] line
  let line := reSub (.lit "Ro\"" false) [.lit "R0\""] line
  let line := pyReplace " Vec ".data " Vec ".data line
  let line := pyReplace " lnf ".data " Inf ".data line
  let line := pyReplace " Alr ".data " Air ".data line
  let line := reSub (reSeq [.grp 1 (.rep ccDigit 1 false), reWS, .lit "p" true,
      .cls (fun c => asciiLower c = 't' || asciiLower c = 'l' || c = '|'),
      .lit "s" true, .bnd])
    [.grp 1, .lit " pts"] line
  let line := reSub (reSeq [
      .grp 1 (reAlts [.lit "Inf" false, .lit "Vec" false, .lit "Air" false]),
      .rep ccSpace 1 false, .lit "(" false,
      .grp 2 (reAlts [.rep ccSWCML 1 false, .lit "CAP" false, .lit "CAS" false]),
      .lit ")" false])
    [.grp 1, .lit "(", .grp 2, .lit ")"] line
  String.mk line

/-- `normalize_for_matching` (lines 697-702). -/
def normalize_for_matching (s : String) : String :=
  let t := reSub (.rep (fun c => !(isPyWord c || isPySpace c)) 1 false) [] s.data
  let t := reSub (.rep ccSpace 1 false) [.lit " "] t
  String.mk (pyLower (pyStrip t))

/-- `LineBox` (lines 647-652). -/
structure LineBox where
  text : String
  is_bold : Bool := false
  is_italic : Bool := false
deriving Repr, DecidableEq

/-- The inner candidate loop of `match_ocr_to_pdf_lines` (lines 736-749):
scan the PDF lines, skipping used indices, keeping the strictly best
ratio.  The similarity function (difflib's `SequenceMatcher.ratio`, an
external collaborator) is the parameter `sim`. -/
def bestLoop (sim : String → String → ℚ) (normOcr : String) (used : List Nat) :
    List LineBox → Nat → Option (Nat × LineBox) × ℚ → Option (Nat × LineBox) × ℚ
  | [], _, acc => acc
  | b :: rest, i, (best, bestR) =>
    if used.contains i then bestLoop sim normOcr used rest (i + 1) (best, bestR)
    else
      let r := sim normOcr (normalize_for_matching b.text)
      if bestR < r then bestLoop sim normOcr used rest (i + 1) (some (i, b), r)
      else bestLoop sim normOcr used rest (i + 1) (best, bestR)

/-- The outer loop of `match_ocr_to_pdf_lines` (lines 723-761). -/
def matchLoop (sim : String → String → ℚ) (pdf : List LineBox) :
    List String → List Nat → List LineBox
  | [], _ => []
  | ocr :: rest, used =>
    if (pyStrip ocr.data).isEmpty then
      { text := ocr } :: matchLoop sim pdf rest used
    else
      match bestLoop sim (normalize_for_matching ocr) used pdf 0 (none, 0) with
      | (some (j, b), r) =>
        if (6 : ℚ)/10 < r then
          { text := ocr, is_bold := b.is_bold, is_italic := b.is_italic } ::
            matchLoop sim pdf rest (j :: used)
        else { text := ocr } :: matchLoop sim pdf rest used
      | (none, _) => { text := ocr } :: matchLoop sim pdf rest used

/-- `match_ocr_to_pdf_lines` (lines 705-763). -/
def match_ocr_to_pdf_lines (sim : String → String → ℚ)
    (ocr_lines : List String) (pdf_line_boxes : List LineBox) : List LineBox :=
  matchLoop sim pdf_line_boxes ocr_lines []

/-- Result of `parse_toughness_value`: Python returns `None`, an `int`, or a
string. -/
inductive ToughVal where
  | none
  | num (n : Nat)
  | str (s : String)
deriving Repr, DecidableEq

/-- `parse_toughness_value` (extractor_ocr.py lines 215-229). -/
def parse_toughness_value (s : String) : ToughVal :=
  let t := pyStrip s.data
  if t.isEmpty then .none
  else if endsWith "-".data t || endsWith "+".data t then .str (String.mk t)
  else if isDigits t then .num (toNatDigits t)
  else .str (String.mk t)

-- -----------------------------------------------------------------
-- parse_card_text (lines 901-1864): data model.
-- -----------------------------------------------------------------

/-- A parsed points cost: integer, or a split "A/B" string. -/
inductive PtsVal where
  | int (n : Nat)
  | str (s : String)
deriving Repr, DecidableEq

/-- Quality: a number, or the string `*` for drones. -/
inductive QualVal where
  | num (n : Nat)
  | star
deriving Repr, DecidableEq

/-- Toughness: single value (planes) or front/side/rear triple. -/
inductive Toughness where
  | single (t : ToughVal)
  | triple (front side rear : ToughVal)
deriving Repr, DecidableEq

/-- The `stats` dict built at lines 1151-1178. -/
structure Stats where
  movement : Nat
  quality : QualVal
  height : Option Nat := none
  spottingDistance : Option Nat := none
  command : Option Nat := none
  evasion : Option Nat := none
  toughness : Option Toughness := none
deriving Repr, DecidableEq

/-- A shot-type entry (ammunition variant) nested under a weapon. -/
structure ShotType where
  name : String
  target : String
  range : Nat
  accuracy : AccVal
  dice : Nat
  strength : Option StrengthVal := none
  specialRules : List String := []
deriving Repr, DecidableEq

/-- A weapon dict; an absent `specialRules`/`shotTypes` key is the empty
list, an absent `strength`/`ammo` is `none`. -/
structure Weapon where
  name : String
  target : String
  range : Nat
  accuracy : AccVal
  dice : Nat
  strength : Option StrengthVal := none
  ammo : Option Nat := none
  specialRules : List String := []
  shotTypes : List ShotType := []
deriving Repr, DecidableEq

/-- The unit record returned by `parse_card_text` (special rules kept as
their name strings). -/
structure UnitRec where
  id : String
  name : String
  unitClass : String
  points : PtsVal
  stats : Stats
  descriptiveCategory : Option String := none
  specialRules : List String := []
  description : Option String := none
  weapons : List Weapon := []
deriving Repr, DecidableEq

-- -----------------------------------------------------------------
-- parse_card_text: preprocessing phases.
-- -----------------------------------------------------------------

def footerNoise (s : String) : Bool := reSearchTest FOOTER_NOISE_RE s.data

/-- Lines 903-930: build `lines` and `line_boxes` (footer noise and blank
lines removed; the plain-text fallback when `line_boxes` is empty). -/
def initLines (card_text : String) (lbs : List LineBox) : List String × List LineBox :=
  if !lbs.isEmpty then
    let filtered := lbs.filter
      (fun lb => !(pyStrip lb.text.data).isEmpty && !footerNoise lb.text)
    (filtered.map (fun lb => norm lb.text), filtered)
  else
    let ls := (pySplitlinesFix card_text.data).map (fun l => norm (String.mk l))
    let ls := ls.filter (fun l => !(pyStrip l.data).isEmpty)
    let ls := ls.filter (fun l => !footerNoise l)
    (ls, ls.map (fun l => { text := l }))

/-- Lines 956-972: merge a lone `Inf`/`Vec`/`Air` line with a following
class-flag line (only without formatting). -/
def mergeUnitTypeLines : List String → List String
  | [] => []
  | [line] => [line]
  | line :: next :: rest2 =>
    if reTest UNIT_TYPE_ONLY_RE (pyStrip line.data) ∧
        reTest CLASSFLAG_SPLIT_RE (pyStrip next.data) then
      (line ++ String.mk (pyStrip next.data)) :: mergeUnitTypeLines rest2
    else line :: mergeUnitTypeLines (next :: rest2)

/-- Line 986 condition on the current line of the weapon-name merge pass. -/
def mergeCondLine (line : String) : Bool :=
  line.length < 30 && !hasChar ',' line.data &&
    !reSearchTest PROFILE_DETECT_RE line.data && !reTest STAT_RE line.data &&
    !reTest SPECIAL_RULE_SHAPE_RE line.data

/-- Lines 996-1008: collect up to three following short fragment lines. -/
def collectFrags (lines : List String) : Nat → Nat → List String × Nat
  | _, 0 => ([], 0)
  | j, fuel + 1 =>
    if j < lines.length then
      let next := (lines.get? j).getD ""
      if reSearchTest PROFILE_DETECT_RE next.data || reTest STAT_RE next.data ||
          next.length > 30 then ([], 0)
      else if next.length < 30 ∧ ¬ hasChar ',' next.data then
        let r := collectFrags lines (j + 1) fuel
        (next :: r.1, r.2 + 1)
      else ([], 0)
    else ([], 0)

def joinSpace (l : List String) : String := String.intercalate " " l

/-- Lines 980-1022: merge split weapon-name lines (skipping the first three
lines). -/
def mergeWeaponLinesGo (lines : List String) : Nat → Nat → List String
  | 0, _ => []
  | fuel + 1, i =>
    if i < lines.length then
      let line := (lines.get? i).getD ""
      if i ≥ 3 ∧ i + 1 < lines.length ∧ mergeCondLine line then
        let fr := collectFrags lines (i + 1) 3
        let frags := line :: fr.1
        if frags.length > 1 ∧ reTest WEAPON_NAME_RE (joinSpace frags).data then
          joinSpace frags :: mergeWeaponLinesGo lines fuel (i + 1 + fr.2)
        else line :: mergeWeaponLinesGo lines fuel (i + 1)
      else line :: mergeWeaponLinesGo lines fuel (i + 1)
    else []

def mergeWeaponLines (lines : List String) (i : Nat) : List String :=
  mergeWeaponLinesGo lines (lines.length + 1) i

/-- Lines 1026-1033: fix `At++` to `A++` in weapon profiles. -/
def fixAtPlus (line : String) : String :=
  if reSearchTest AT_PLUS_DETECT_RE line.data then
    String.mk (reSub AT_PLUS_FIX_RE [.grp 1, .lit "A", .grp 2] line.data)
  else line

-- -----------------------------------------------------------------
-- parse_card_text: header search (lines 1043-1097).
-- -----------------------------------------------------------------

def mkPoints (pts : Chars) : PtsVal :=
  if hasChar '/' pts then .str (String.mk pts) else .int (toNatDigits pts)

/-- Lines 1049-1058: the standard `Name - Points pts` form in the first
five lines. -/
def headerAttempt1 (lines : List String) : Option (String × PtsVal × Nat) :=
  ((lines.take 5).enum.findSome? (fun p =>
    match reMatch HEADER_RE p.2.data with
    | some (caps, _) =>
      some (clean_unit_name (norm (String.mk (capStr caps 1))),
            mkPoints (capStr caps 2), p.1)
    | none => none))

/-- Lines 1062-1070: name line, `-` line, `N pts` line. -/
def headerAttempt2 (lines : List String) : Option (String × PtsVal × Nat) :=
  (List.range (min 3 (lines.length - 2))).findSome? (fun i =>
    if pyStrip ((lines.get? (i + 1)).getD "").data = "-".data ∧
        hasSub "pts".data (pyLower ((lines.get? (i + 2)).getD "").data) then
      match reSearch PTS_SEARCH_RE ((lines.get? (i + 2)).getD "").data with
      | some r =>
        some (clean_unit_name (norm ((lines.get? i).getD "")),
              .int (toNatDigits (capStr r.2.1 1)), i + 2)
      | none => none
    else none)

/-- Lines 1073-1082: a `- N pts` line preceded by the name line. -/
def headerAttempt3 (lines : List String) : Option (String × PtsVal × Nat) :=
  (List.range (min 4 (lines.length - 1))).findSome? (fun i =>
    match reMatch DASH_PTS_RE ((lines.get? i).getD "").data with
    | some (caps, _) =>
      if i > 0 then
        some (clean_unit_name (norm ((lines.get? (i - 1)).getD "")),
              mkPoints (capStr caps 1), i)
      else none
    | none => none)

/-- Lines 1085-1094: `name - N` line followed by a lone `pts` line. -/
def headerAttempt4 (lines : List String) : Option (String × PtsVal × Nat) :=
  (List.range (min 4 (lines.length - 1))).findSome? (fun i =>
    if pyLower (pyStrip ((lines.get? (i + 1)).getD "").data) = "pts".data then
      match reMatch NAME_DASH_PTS_RE ((lines.get? i).getD "").data with
      | some (caps, _) =>
        some (clean_unit_name (norm (String.mk (capStr caps 1))),
              mkPoints (capStr caps 2), i + 1)
      | none => none
    else none)

/-- The whole header search: the four attempts in source order. -/
def headerSearch (lines : List String) : Option (String × PtsVal × Nat) :=
  (headerAttempt1 lines).orElse (fun _ =>
    (headerAttempt2 lines).orElse (fun _ =>
      (headerAttempt3 lines).orElse (fun _ => headerAttempt4 lines)))

-- -----------------------------------------------------------------
-- parse_card_text: stat-line search (lines 1102-1183).
-- -----------------------------------------------------------------

/-- What the stat phase produces: combined unit type, stats, the stat line
index and the descriptive category line before it. -/
structure StatFound where
  unitType : String
  stats : Stats
  statI : Nat
  descCat : Option String
deriving Repr, DecidableEq

instance {e a : Type} [DecidableEq e] [DecidableEq a] :
    DecidableEq (Except e a) := fun x y =>
  match x, y with
  | .error u, .error v =>
    if h : u = v then isTrue (by rw [h]) else isFalse (by intro hc; cases hc; exact h rfl)
  | .ok u, .ok v =>
    if h : u = v then isTrue (by rw [h]) else isFalse (by intro hc; cases hc; exact h rfl)
  | .error _, .ok _ => isFalse (by intro hc; cases hc)
  | .ok _, .error _ => isFalse (by intro hc; cases hc)

/-- Lines 1125-1178: build the stats from a `STAT_RE` match.  `int()` on a
non-digit movement token (an IGNORECASE `o` capture) raises in Python;
that case is `Except.error`. -/
def buildStats (caps : Caps) : Except String (String × Stats) :=
  let unitType0 := String.mk (capStr caps 1)
  let unitType := match capTruthy caps 2 with
    | some cf => unitType0 ++ "(" ++ String.mk cf ++ ")"
    | none => unitType0
  let moveVal := capStr caps 5
  let movement? : Except String Nat :=
    if moveVal = "O".data ∨ moveVal = "0".data then .ok 0
    else if isDigits moveVal then .ok (toNatDigits moveVal)
    else .error "ValueError: int()"
  match movement? with
  | .error e => .error e
  | .ok movement =>
    let qualVal := capStr caps 6
    let quality : QualVal := if qualVal = "*".data then .star else .num (toNatDigits qualVal)
    let toughness : Option Toughness :=
      match capTruthy caps 7 with
      | some tf =>
        match capTruthy caps 8, capTruthy caps 9 with
        | some ts, some tr =>
          some (.triple (parse_toughness_value (String.mk tf))
            (parse_toughness_value (String.mk ts)) (parse_toughness_value (String.mk tr)))
        | _, _ => some (.single (parse_toughness_value (String.mk tf)))
      | none => none
    .ok (unitType,
      { movement := movement
        quality := quality
        height := (capTruthy caps 3).map toNatDigits
        spottingDistance := (capTruthy caps 4).map toNatDigits
        command := (capTruthy caps 11).map toNatDigits
        evasion := (capTruthy caps 10).map toNatDigits
        toughness := toughness })

/-- Lines 1107-1180: scan up to nine lines after the header for the stat
line, re-trying with the next line appended when formatting says the
unit type was split. -/
def statSearch (lines : List String) (hasFmt : Bool) (headerIdx : Nat) :
    Option (Except String StatFound) :=
  ((List.range (min (headerIdx + 10) lines.length - (headerIdx + 1))).findSome?
    (fun k =>
      let i := headerIdx + 1 + k
      let li := (lines.get? i).getD ""
      let m := reMatch STAT_RE li.data
      let m :=
        if m.isNone ∧ hasFmt ∧ i + 1 < lines.length ∧
            reTest UNIT_TYPE_ONLY_RE (pyStrip li.data) then
          reMatch STAT_RE (li ++ (lines.get? (i + 1)).getD "").data
        else m
      match m with
      | some (caps, _) =>
        let descCat := if i > headerIdx + 1 then lines.get? (i - 1) else none
        match buildStats caps with
        | .error e => some (.error e)
        | .ok (ut, st) =>
          some (.ok { unitType := ut, stats := st, statI := i, descCat := descCat })
      | none => none))

-- -----------------------------------------------------------------
-- parse_card_text: special rules, description (lines 1198-1383).
-- -----------------------------------------------------------------

/-- `is_weapon_line` (lines 1198-1206); `idx = none` models the `-1`
default. -/
def is_weapon_line (lbs : List LineBox) (ln : String) (idx : Option Nat) : Bool :=
  let matchesPat := reTest WEAPON_NAME_RE ln.data
  match idx with
  | some i =>
    if i < lbs.length then matchesPat && !((lbs.get? i).getD {text := ""}).is_italic
    else matchesPat
  | none => matchesPat

/-- `is_special_rule_line` (lines 1208-1215). -/
def is_special_rule_line (lbs : List LineBox) (idx : Nat) : Bool :=
  if idx < lbs.length then ((lbs.get? idx).getD {text := ""}).is_italic else false

/-- Lines 1229-1254: collect italic lines as special rules, buffering
non-italic lines as `(index, text)` pairs, up to the first separator or
weapon line.  Returns (special rules, buffered lines, final cursor). -/
def collectSpecialRulesGo (lines : List String) (lbs : List LineBox) :
    Nat → Nat → List String × List (Nat × String) × Nat
  | 0, cursor => ([], [], cursor)
  | fuel + 1, cursor =>
    if cursor < lines.length ∧
        !is_weapon_line lbs ((lines.get? cursor).getD "") (some cursor) then
      let ln0 := (lines.get? cursor).getD ""
      if reTest UNDERSCORE_RE (pyStrip ln0.data) then ([], [], cursor + 1)
      else
        let ln := String.mk (pyStrip (stripChar '_' ln0.data))
        let r := collectSpecialRulesGo lines lbs fuel (cursor + 1)
        if ln.data.isEmpty then r
        else if is_special_rule_line lbs cursor then
          ((if hasChar ',' ln.data then split_rules_smart ln else [ln]) ++ r.1,
           r.2.1, r.2.2)
        else (r.1, (cursor, ln) :: r.2.1, r.2.2)
    else ([], [], cursor)

def collectSpecialRules (lines : List String) (lbs : List LineBox)
    (cursor : Nat) : List String × List (Nat × String) × Nat :=
  collectSpecialRulesGo lines lbs (lines.length + 1) cursor

/-- Lines 1264-1293: split an italic line that contains an embedded weapon
code into a special-rule part and a weapon part. -/
def splitItalicWeaponLines : List (String × LineBox) → List (String × LineBox)
  | [] => []
  | (line, lb) :: rest =>
    if lb.is_italic then
      match reSearch WEAPON_CODE_SEARCH_RE line.data with
      | some (pre, _, _) =>
        let start := pre.length
        if start > 0 then
          let sr := String.mk (pyStrip (line.data.take start))
          let wp := String.mk (pyStrip (line.data.drop start))
          if ¬ sr.data.isEmpty ∧ ¬ wp.data.isEmpty then
            (sr, { text := sr, is_italic := true }) :: (wp, { text := wp }) ::
              splitItalicWeaponLines rest
          else (line, lb) :: splitItalicWeaponLines rest
        else (line, lb) :: splitItalicWeaponLines rest
      | none => (line, lb) :: splitItalicWeaponLines rest
    else (line, lb) :: splitItalicWeaponLines rest

/-- `^[A-Z][a-z]+(?:\s*\([^)]+\))?$` (line 1312), no flags. -/
def RULE_PATTERN_RE : RE :=
  reSeq [.cls isAsciiUpper, .rep isAsciiLowerAlpha 1 false,
         .opt (reSeq [reWS, .lit "(" false, .rep ccNonParenR 1 false,
                      .lit ")" false]), .eol]

/-- Lines 1302-1319: find where the buffered non-italic run switches from
special rules to description. -/
def descStartIdx (temp : List String) : Option Nat :=
  (List.range temp.length).findSome? (fun i =>
    if i + 3 < temp.length then
      let combined := joinSpace (temp.drop i)
      let text := (temp.get? i).getD ""
      let isSentence := combined.length > 20 ∧
        (endsWith ".".data combined.data ∨ endsWith ")".data combined.data)
      let isNotSpecialRule := ¬ reTest RULE_PATTERN_RE text.data
      let isSentenceWord :=
        text ∈ ["All", "The", "Each", "When", "If", "Any", "This"]
      if isSentence ∧ (isNotSpecialRule ∨ isSentenceWord) then some i else none
    else none)

/-- Lines 1296-1335: resolve the buffered lines into extra special rules
and/or a description. -/
def processTempRules (temp : List (Nat × String)) :
    List String × Option String :=
  if temp.isEmpty then ([], none)
  else
    let texts := temp.map Prod.snd
    match descStartIdx texts with
    | some idx => (texts.take idx, some (joinSpace (texts.drop idx)))
    | none => (texts, none)

/-- Lines 1354-1360: after a second separator, skip blank/separator lines
and test whether a weapon line follows. -/
def weaponAfterSepGo (lines : List String) (lbs : List LineBox) :
    Nat → Nat → Bool × Nat
  | 0, peek => (false, peek)
  | fuel + 1, peek =>
    if peek < lines.length then
      let lp := (lines.get? peek).getD ""
      if reTest UNDERSCORE_RE (pyStrip lp.data) ∨ (pyStrip lp.data).isEmpty then
        weaponAfterSepGo lines lbs fuel (peek + 1)
      else (is_weapon_line lbs lp none, peek)
    else (false, peek)

def weaponAfterSep (lines : List String) (lbs : List LineBox) (peek : Nat) :
    Bool × Nat :=
  weaponAfterSepGo lines lbs (lines.length + 1) peek

/-- Lines 1347-1369: the description-block peek loop.  Returns
(collected lines, found second separator, found weapon after, final peek
cursor). -/
def descPeekGo (lines : List String) (lbs : List LineBox) :
    Nat → Nat → List String × Bool × Bool × Nat
  | 0, peek => ([], false, false, peek)
  | fuel + 1, peek =>
    if peek < lines.length then
      let lp := (lines.get? peek).getD ""
      if reTest UNDERSCORE_RE (pyStrip lp.data) then
        let r := weaponAfterSep lines lbs (peek + 1)
        ([], true, r.1, r.2)
      else if is_weapon_line lbs lp none then ([], false, false, peek)
      else
        let dl := String.mk (pyStrip (stripChar '_' lp.data))
        let r := descPeekGo lines lbs fuel (peek + 1)
        ((if dl.data.isEmpty then [] else [dl]) ++ r.1, r.2.1, r.2.2.1, r.2.2.2)
    else ([], false, false, peek)

def descPeek (lines : List String) (lbs : List LineBox) (peek : Nat) :
    List String × Bool × Bool × Nat :=
  descPeekGo lines lbs (lines.length + 1) peek

-- -----------------------------------------------------------------
-- parse_card_text: the weapon loop (lines 1386-1833).
-- -----------------------------------------------------------------

def asciiUpper (c : Char) : Char :=
  if isAsciiLowerAlpha c then Char.ofNat (c.toNat - 32) else c

def pyUpper (s : Chars) : Chars := s.map asciiUpper

/-- Lines 1470-1476: the mortar-type word taken from the descriptive
category (each qualifying word overwrites the previous one). -/
def mortarType (dc : String) : String :=
  (pySplitWs (pyLower dc.data)).foldl (fun acc w =>
    if w = "towed".data ∨ w = "mortar".data ∨ w = "self-propelled".data then acc
    else String.mk (pyTitle w) ++ " ") ""

/-- Lines 1466-1478 / 1640-1650: heuristic weapon naming from a caliber. -/
def mortarName (descCat : Option String) (cal : String) : String :=
  match descCat with
  | some dc =>
    if ¬ dc.data.isEmpty ∧ hasSub "MORTAR".data (pyUpper dc.data) then
      cal ++ " " ++ mortarType dc ++ "Mortar"
    else cal ++ " Mortar"
  | none => cal ++ " Mortar"

/-- Lines 1450-1484: name an unnamed profile from a following ammunition
variant line. -/
def lookAheadNameGo (lines : List String) (descCat : Option String) :
    Nat → Nat → String
  | 0, _ => "(Unnamed weapon)"
  | fuel + 1, nc =>
    if nc < lines.length then
      let nextLn := String.mk (pyStrip ((lines.get? nc).getD "").data)
      if nextLn.data.isEmpty ∨ reTest UNDERSCORE_RE nextLn.data then
        lookAheadNameGo lines descCat fuel (nc + 1)
      else if startsWith ">".data nextLn.data then
        match reSearch CALIBER_RE nextLn.data with
        | some r => mortarName descCat (String.mk (capStr r.2.1 1))
        | none => "(Unnamed weapon)"
      else if reSearchTest PROFILE_DETECT_RE nextLn.data then "(Unnamed weapon)"
      else lookAheadNameGo lines descCat fuel (nc + 1)
    else "(Unnamed weapon)"

def lookAheadName (lines : List String) (descCat : Option String) (nc : Nat) :
    String :=
  lookAheadNameGo lines descCat (lines.length + 1) nc

/-- Lines 1421-1445: resolve an unnamed profile's title from the previous
weapon's last special rule (popping it when it is used). -/
def resolveUnnamed (weapons : List Weapon) : String × List Weapon :=
  match weapons.getLast? with
  | some lw =>
    if ¬ lw.specialRules.isEmpty then
      let lastRule := (lw.specialRules.getLast?).getD ""
      if reTest WEAPON_NAME_RE lastRule.data then
        let t2 :=
          if hasChar '>' lastRule.data ∧ ¬ startsWith ">".data lastRule.data then
            match splitOnce '>' lastRule.data with
            | some (_, p2) =>
              let pot := ">" ++ String.mk (pyStrip p2)
              if reTest WEAPON_NAME_RE pot.data then pot else lastRule
            | none => lastRule
          else lastRule
        (t2, weapons.dropLast ++
          [{ lw with specialRules := lw.specialRules.dropLast }])
      else ("(Unnamed weapon)", weapons)
    else ("(Unnamed weapon)", weapons)
  | none => ("(Unnamed weapon)", weapons)

/-- Lines 1513-1525: extract `Turret` / `No CC` / `Multi-Gun` from a
weapon name. -/
def extractEmbedded (t : String) : String × List String :=
  ["Turret", "No CC", "Multi-Gun"].foldl (fun acc rule =>
    if reSearchTest (embeddedRuleRE rule) acc.1.data then
      (String.mk (reSub (embeddedRuleSubRE rule) [.lit " "] acc.1.data),
       acc.2 ++ [rule])
    else acc) (t, [])

/-- Lines 1491-1528: clean a matched weapon name; returns the cleaned
title and the embedded special rules. -/
def cleanWeaponTitle (t0 : String) : String × List String :=
  let t1 := String.mk (reSub AMMO_IN_NAME_RE [.lit " "] t0.data)
  let te :=
    if hasChar '>' t1.data ∧ ¬ startsWith ">".data t1.data then
      match splitOnce '>' t1.data with
      | some (p1, p2) =>
        let base := String.mk (pyStrip p1)
        let ammoPart := ">" ++ String.mk (pyStrip p2)
        let be := extractEmbedded base
        (String.mk (pyStrip be.1.data) ++ " " ++ ammoPart, be.2)
      | none => (t1, [])
    else extractEmbedded t1
  (String.mk (pyStrip (reSub WS_PLUS_RE [.lit " "] te.1.data)), te.2)

/-- Lines 1634-1655: name a still-unnamed weapon from the first
`>`-prefixed rule carrying a caliber token, removing that rule. -/
def renameFromRules (descCat : Option String) (title : String)
    (wRules : List String) : String × List String :=
  if title = "(Unnamed weapon)" ∧ ¬ wRules.isEmpty then
    match wRules.findSome? (fun rule =>
      if startsWith ">".data rule.data then
        match reSearch CALIBER_RE rule.data with
        | some r => some (rule, String.mk (capStr r.2.1 1))
        | none => none
      else none) with
    | some rc => (mortarName descCat rc.2, wRules.erase rc.1)
    | none => (title, wRules)
  else (title, wRules)

/-- Lines 1714-1735 / 1803-1824: rebuild orphaned radius markers for Smoke
and Chemical-SP shot types. -/
def smokeFix (shotName : String) (rules : List String) : List String :=
  if endsWith "Smoke".data shotName.data ∨
      endsWith "Chemical-SP".data shotName.data then
    let ammoType := String.mk (((pySplitWs shotName.data).getLast?).getD [])
    rules.map (fun rule =>
      if reTest RADIUS_RULE_RE rule.data then
        let radius :=
          if ¬ hasChar '"' rule.data ∧ hasChar ')' rule.data then
            String.mk (pyReplace ")".data "\")".data rule.data)
          else rule
        ammoType ++ " " ++ radius
      else rule)
  else rules

/-- Lines 1557-1594: collect special rules (and a standalone `Ammo N`
line) after a profile.  Returns the collected rules, the ammo value (last
assignment wins) and the number of lines consumed. -/
def collectWRulesGo (lines : List String) (lbs : List LineBox) :
    Nat → Nat → List String × Option Nat × Nat
  | 0, _ => ([], none, 0)
  | fuel + 1, cursor =>
    if cursor < lines.length ∧
        ¬ is_weapon_line lbs ((lines.get? cursor).getD "") (some cursor) then
      let ruleLn := String.mk (pyStrip (stripChar '_' ((lines.get? cursor).getD "").data))
      let isIt := decide (cursor < lbs.length) &&
        ((lbs.get? cursor).getD {text := ""}).is_italic
      match reMatch AMMO_LINE_RE ruleLn.data with
      | some (caps, _) =>
        let r := collectWRulesGo lines lbs fuel (cursor + 1)
        (r.1, r.2.1.orElse (fun _ => some (toNatDigits (capStr caps 1))), r.2.2 + 1)
      | none =>
        if ¬ ruleLn.data.isEmpty ∧ ¬ reSearchTest PROFILE_DETECT_RE ruleLn.data then
          if startsWith ">".data ruleLn.data ∧ reTest WEAPON_NAME_RE ruleLn.data then
            ([], none, 0)
          else
            let adds :=
              if isIt ∨ hasChar ',' ruleLn.data then
                (split_rules_smart ruleLn).filter (fun p =>
                  ¬ (startsWith ">".data p.data ∧ reTest WEAPON_NAME_RE p.data))
              else []
            let r := collectWRulesGo lines lbs fuel (cursor + 1)
            (adds ++ r.1, r.2.1, r.2.2 + 1)
        else if reSearchTest PROFILE_DETECT_RE ruleLn.data then ([], none, 0)
        else
          let r := collectWRulesGo lines lbs fuel (cursor + 1)
          (r.1, r.2.1, r.2.2 + 1)
    else ([], none, 0)

def collectWRules (lines : List String) (lbs : List LineBox) (cursor : Nat) :
    List String × Option Nat × Nat :=
  collectWRulesGo lines lbs (lines.length + 1) cursor

/-- Lines 1748-1774: find the base weapon for a `>`-prefixed ammunition
variant (the backwards walk with caliber matching). -/
def variantBaseIdx (caliber : Option String) (ws : List Weapon) : Option Nat :=
  ws.enum.foldl (fun acc q =>
    if startsWith ">".data q.2.name.data then acc
    else match caliber with
      | some cal =>
        match reSearch CALIBER_RE q.2.name.data with
        | some r => if String.mk (capStr r.2.1 1) = cal then some q.1 else acc
        | none => acc
      | none => some q.1) none

/-- Lines 1548-1833 after a profile has matched: build the weapon object
and fold it into the weapons list (shot-type handling included).  Returns
the extra cursor advance beyond `profileIdx + 1` and the new weapons
list. -/
def weaponStep (lines : List String) (lbs : List LineBox)
    (descCat : Option String) (profileIdx : Nat) (pcaps : Caps)
    (title : String) (weapons : List Weapon)
    (embedded : Option (List String)) : Nat × List Weapon :=
  let wRules0 := match capTruthy pcaps 7 with
    | some t => if ¬ (pyStrip t).isEmpty then split_rules_smart (String.mk t) else []
    | none => []
  let col := collectWRules lines lbs (profileIdx + 1)
  let wRules1 := wRules0 ++ col.1
  let ammoLine := col.2.1
  let delta := col.2.2
  let rv := capStr pcaps 2
  let rv := if rv = "O".data ∨ pyLower rv = "o".data then "0".data
    else if pyLower rv = "e".data ∨ pyLower rv = "eo".data then "40".data
    else if pyLower rv = "4o".data then "40".data
    else rv
  let accuracy := parse_acc (String.mk (capStr pcaps 3))
  let strength := match capTruthy pcaps 4 with
    | some _ => parse_strength (String.mk (capStr pcaps 4))
    | none => none
  match accuracy with
  | none => (delta, weapons)
  | some acc =>
    let target := match capTruthy pcaps 1 with
      | some t => String.mk (pyReplace " ".data [] t)
      | none => "All"
    let rn := renameFromRules descCat title wRules1
    let title2 := rn.1
    let wRules3 := match embedded with
      | some es => if ¬ es.isEmpty then es ++ rn.2 else rn.2
      | none => rn.2
    let wobj : Weapon := {
      name := title2, target := target, range := toNatDigits rv,
      accuracy := acc, dice := toNatDigits (capStr pcaps 5),
      strength := strength,
      ammo := match capTruthy pcaps 6 with
        | some a => some (toNatDigits a)
        | none => ammoLine,
      specialRules := if ¬ wRules3.isEmpty then
          dedupe_preserve_order (merge_fragmented_rules wRules3)
        else [] }
    if hasChar '>' title2.data ∧ ¬ startsWith ">".data title2.data then
      match splitOnce '>' title2.data with
      | some (p1, p2) =>
        let baseName := String.mk (pyStrip p1)
        let ammoName := String.mk (pyStrip p2)
        let baseIdx? := weapons.enum.foldl
          (fun acc q => if q.2.name = baseName then some q.1 else acc) none
        let wb : List Weapon × Nat := match baseIdx? with
          | some i => (weapons, i)
          | none =>
            (weapons ++ [{ name := baseName, target := wobj.target,
                           range := wobj.range, accuracy := wobj.accuracy,
                           dice := wobj.dice, strength := wobj.strength,
                           ammo := wobj.ammo,
                           specialRules := wobj.specialRules }],
             weapons.length)
        let shotRules := if ¬ wobj.specialRules.isEmpty then
            smokeFix ammoName wobj.specialRules else []
        let shot : ShotType :=
          { name := ammoName, target := wobj.target, range := wobj.range,
            accuracy := wobj.accuracy, dice := wobj.dice,
            strength := wobj.strength, specialRules := shotRules }
        let weapons3 := match wb.1.get? wb.2 with
          | some bw => wb.1.set wb.2 { bw with shotTypes := bw.shotTypes ++ [shot] }
          | none => wb.1
        (delta, weapons3)
      | none => (delta, weapons ++ [wobj])
    else if startsWith ">".data title2.data ∧ ¬ weapons.isEmpty then
      let caliber := (reSearch CALIBER_RE title2.data).map
        (fun r => String.mk (capStr r.2.1 1))
      match variantBaseIdx caliber weapons with
      | none => (delta + 1, weapons)
      | some bidx =>
        let shotName := String.mk (pyStrip (title2.data.drop 1))
        let shotRules := if ¬ wobj.specialRules.isEmpty then
            smokeFix shotName wobj.specialRules else []
        let shot : ShotType :=
          { name := shotName, target := wobj.target, range := wobj.range,
            accuracy := wobj.accuracy, dice := wobj.dice,
            strength := wobj.strength, specialRules := shotRules }
        let weapons3 := match weapons.get? bidx with
          | some bw => weapons.set bidx { bw with shotTypes := bw.shotTypes ++ [shot] }
          | none => weapons
        (delta, weapons3)
    else (delta, weapons ++ [wobj])

/-- The weapon while-loop (lines 1386-1833); the fuel bounds the number of
iterations (the cursor advances every iteration, so `lines.length + 1`
iterations suffice). -/
def weaponLoopGo (lines : List String) (lbs : List LineBox)
    (descCat : Option String) :
    Nat → Nat → List Weapon → Option (List String) → List Weapon
  | 0, _, weapons, _ => weapons
  | fuel + 1, cursor, weapons, embedded =>
    if cursor < lines.length then
      let ln := (lines.get? cursor).getD ""
      let cleanedLn :=
        if hasChar '>' ln.data ∧ ¬ startsWith ">".data (pyStrip ln.data) then
          match splitOnce '>' ln.data with
          | some (p1, p2) =>
            let firstPart := String.mk (pyStrip p1)
            let potential := ">" ++ String.mk (pyStrip p2)
            if reTest WEAPON_NAME_RE potential.data ∧
                ¬ reTest WEAPON_NAME_RE firstPart.data then potential
            else ln
          | none => ln
        else ln
      let isItalicLine := decide (cursor < lbs.length) &&
        ((lbs.get? cursor).getD {text := ""}).is_italic
      match reMatch WEAPON_NAME_RE cleanedLn.data with
      | none =>
        if reSearchTest PROFILE_DETECT_RE ln.data then
          match reMatch PROFILE_RE ln.data with
          | some (pcaps, _) =>
            let tw := resolveUnnamed weapons
            let title1 := if tw.1 = "(Unnamed weapon)" then
                lookAheadName lines descCat (cursor + 1)
              else tw.1
            let st := weaponStep lines lbs descCat cursor pcaps title1 tw.2 embedded
            weaponLoopGo lines lbs descCat fuel (cursor + 1 + st.1) st.2 embedded
          | none => weaponLoopGo lines lbs descCat fuel (cursor + 1) weapons embedded
        else weaponLoopGo lines lbs descCat fuel (cursor + 1) weapons embedded
      | some (wcaps, _) =>
        if !isItalicLine then
          let ct := cleanWeaponTitle (norm (String.mk (capStr wcaps 0)))
          if cursor + 1 < lines.length then
            match reMatch PROFILE_RE ((lines.get? (cursor + 1)).getD "").data with
            | none => weaponLoopGo lines lbs descCat fuel (cursor + 2) weapons (some ct.2)
            | some (pcaps, _) =>
              let st := weaponStep lines lbs descCat (cursor + 1) pcaps ct.1
                weapons (some ct.2)
              weaponLoopGo lines lbs descCat fuel (cursor + 2 + st.1) st.2 (some ct.2)
          else weapons
        else weaponLoopGo lines lbs descCat fuel (cursor + 1) weapons embedded
    else weapons

def weaponLoop (lines : List String) (lbs : List LineBox)
    (descCat : Option String) (cursor : Nat) (weapons : List Weapon)
    (embedded : Option (List String)) : List Weapon :=
  weaponLoopGo lines lbs descCat (lines.length + 1) cursor weapons embedded

-- -----------------------------------------------------------------
-- parse_card_text: the whole function (lines 901-1864).
-- -----------------------------------------------------------------

/-- The preprocessed line state of `parse_card_text`: the filtered lines
(before merging), the lines after the merge passes and the `At++` fix,
the filtered line boxes, and `has_formatting`. -/
structure PreLines where
  lines0 : List String
  lines : List String
  boxes : List LineBox
  hasFmt : Bool
deriving Repr, DecidableEq

/-- Lines 903-1033: filtering, the two merge passes and the `At++` fix. -/
def preprocessLines (card_text : String) (lbs0 : List LineBox) : PreLines :=
  let il := initLines card_text lbs0
  let hasFmt := !il.2.isEmpty && il.2.any (fun lb => lb.is_italic)
  let lines1 := if !hasFmt then mergeUnitTypeLines il.1 else il.1
  let lines2 := mergeWeaponLines lines1 0
  { lines0 := il.1, lines := lines2.map fixAtPlus, boxes := il.2,
    hasFmt := hasFmt }

/-- `parse_card_text`.  The outer `Option` is exception-freedom (`none` =
a Python exception, only possible when `int()` is applied to an
IGNORECASE `o` movement capture); the inner `Option` is the function's
own `None` return. -/
def parse_card_text (nfkd : String → String) (card_text : String)
    (lbs0 : List LineBox) : Option (Option UnitRec) :=
  let pp := preprocessLines card_text lbs0
  let lbs := pp.boxes
  if pp.lines0.isEmpty then some none
  else
    let hasFmt := pp.hasFmt
    let lines3 := pp.lines
    match headerSearch lines3 with
    | none => some none
    | some (unitName, points, headerIdx) =>
      match statSearch lines3 hasFmt headerIdx with
      | none => some none
      | some (.error _) => none
      | some (.ok sf) =>
        let cursor0 :=
          if hasFmt ∧ reTest UNIT_TYPE_ONLY_RE
              (pyStrip ((lines3.get? sf.statI).getD "").data) then sf.statI + 2
          else sf.statI + 1
        let csr := collectSpecialRules lines3 lbs cursor0
        let specialRules0 := csr.1
        let temp := csr.2.1
        let cursor1 := csr.2.2
        let fixedPairs := splitItalicWeaponLines (lines3.zip lbs)
        let lines4 := fixedPairs.map Prod.fst
        let lbs4 := fixedPairs.map Prod.snd
        let pt := processTempRules temp
        let specialRules1 := specialRules0 ++ pt.1
        let db :=
          if cursor1 < lines4.length ∧
              ¬ is_weapon_line lbs4 ((lines4.get? cursor1).getD "") none then
            descPeek lines4 lbs4 cursor1
          else ([], false, false, cursor1)
        let dsc :=
          if db.2.1 ∧ db.2.2.1 ∧ ¬ db.1.isEmpty then
            (some (joinSpace db.1), specialRules1, db.2.2.2)
          else if ¬ db.1.isEmpty ∧ ¬ db.2.2.1 then
            (pt.2, specialRules1 ++ db.1.filter (fun l =>
               ¬ ((pySplitWs l.data).length > 5 ∧ ¬ hasChar ',' l.data)), cursor1)
          else (pt.2, specialRules1, cursor1)
        let weapons := weaponLoop lines4 lbs4 sf.descCat dsc.2.2 [] none
        let mergedRules :=
          if ¬ dsc.2.1.isEmpty then merge_fragmented_rules dsc.2.1 else []
        some (some {
          id := slugify nfkd unitName,
          name := unitName,
          unitClass := sf.unitType,
          points := points,
          stats := sf.stats,
          descriptiveCategory := match sf.descCat with
            | some d => if d.data.isEmpty then none else some d
            | none => none,
          specialRules := dedupe_preserve_order mergedRules,
          description := match dsc.1 with
            | some d => if d.data.isEmpty then none else some d
            | none => none,
          weapons := weapons })

-- -----------------------------------------------------------------
-- extract_units_from_qur_ocr: the final deduplication pass.
-- -----------------------------------------------------------------

def dedupeUnitsGo : List UnitRec → List String → List UnitRec
  | [], _ => []
  | u :: rest, seen =>
    if u.id = "" ∨ seen.contains u.id then dedupeUnitsGo rest seen
    else u :: dedupeUnitsGo rest (u.id :: seen)

/-- The per-run deduplication of `extract_units_from_qur_ocr`
(lines 1963-1973): a falsy (empty) id or an already-seen id drops the
unit, first occurrence wins. -/
def dedupeUnitsById (units : List UnitRec) : List UnitRec :=
  dedupeUnitsGo units []

-- -----------------------------------------------------------------
-- Specification artifact for the aligner (claim C1): the per-OCR-line
-- PDF index assignment, computed alongside `matchLoop`.
-- -----------------------------------------------------------------

def assignLoop (sim : String → String → ℚ) (pdf : List LineBox) :
    List String → List Nat → List (Option Nat)
  | [], _ => []
  | ocr :: rest, used =>
    if (pyStrip ocr.data).isEmpty then none :: assignLoop sim pdf rest used
    else
      match bestLoop sim (normalize_for_matching ocr) used pdf 0 (none, 0) with
      | (some (j, _), r) =>
        if (6 : ℚ)/10 < r then some j :: assignLoop sim pdf rest (j :: used)
        else none :: assignLoop sim pdf rest used
      | (none, _) => none :: assignLoop sim pdf rest used

/-- The assignment of PDF lines to OCR lines made by the aligner. -/
def matchAssign (sim : String → String → ℚ) (ocr_lines : List String)
    (pdf_line_boxes : List LineBox) : List (Option Nat) :=
  assignLoop sim pdf_line_boxes ocr_lines []

/-- The similarity the aligner compares: normalized OCR line against
normalized PDF line `j`. -/
def ratioAt (sim : String → String → ℚ) (pdf : List LineBox)
    (oline : String) (j : Nat) : ℚ :=
  sim (normalize_for_matching oline)
    (normalize_for_matching ((pdf.get? j).getD { text := "" }).text)

/-- PDF indices consumed by assignments strictly before position `i`. -/
def usedBefore (asg : List (Option Nat)) (i : Nat) : List Nat :=
  (asg.take i).filterMap id

-- -----------------------------------------------------------------
-- Concrete cards used by the claim theorems.
-- -----------------------------------------------------------------

def mkPlainBoxes (ls : List String) : List LineBox :=
  ls.map (fun l => { text := l })

/-- A card with the spec's header and stat-block examples. -/
def grenadiersCard : List LineBox :=
  mkPlainBoxes ["GRENADIERS - 120 pts", "Inf(S), M4\", Q3, T1/1/1"]

/-- A card with a split variable-cost points token. -/
def raidersCard : List LineBox :=
  mkPlainBoxes ["RAIDERS - 0/20 pts", "Inf, M4\", Q3"]

/-- An aircraft card whose toughness is a single value. -/
def capCard : List LineBox :=
  mkPlainBoxes ["WASP - 80 pts", "Air(CAP), M10\", Q3, T2"]

/-- The spec's ammo-variant folding example as a card. -/
def howitzerFoldCard : List LineBox :=
  mkPlainBoxes ["HOWITZER - 50 pts", "Inf, M4\", Q3",
    "2K52 152mm Howitzer > 152mm HEAT", "All, R40\", A4+, D2"]

/-- A base weapon followed by a `>`-prefixed caliber-matched variant. -/
def variantFoldCard : List LineBox :=
  mkPlainBoxes ["GUN TEAM - 40 pts", "Inf, M4\", Q3",
    "2K52 152mm Gun", "All, R40\", A4+, D2",
    "> 152mm HEAT", "All, R40\", A3+, D3"]

/-- A card whose first weapon line is a `>`-prefixed ammunition variant:
no prior weapon exists to fold it onto. -/
def variantFirstCard : List LineBox :=
  mkPlainBoxes ["HOWITZER TEAM - 30 pts", "Inf, M4\", Q3",
    "> 152mm HEAT", "All, R40\", A4+, D2"]

/-- A card whose first weapon has an unparseable accuracy token (`A?`)
and whose second weapon is fine. -/
def twoWeaponCard : List LineBox :=
  mkPlainBoxes ["X UNIT - 10 pts", "Inf, M4\", Q3",
    "1A1 Rifle", "All, R10\", A?, D1",
    "2B2 Cannon", "All, R20\", A4+, D2"]

/-- A headerless card. -/
def noHeaderCard : List LineBox := mkPlainBoxes ["foo", "bar", "baz"]

/-- A card with a header but no stat line. -/
def noStatCard : List LineBox :=
  mkPlainBoxes ["X - 10 pts", "blah", "blah2"]

-- -----------------------------------------------------------------
-- Shared lemmas.
-- -----------------------------------------------------------------

theorem dropWhile_eq_self_of_all {p : Char → Bool} (s : Chars)
    (h : ∀ c ∈ s, p c = false) : s.dropWhile p = s := by
  cases s with
  | nil => rfl
  | cons c t => simp [List.dropWhile, h c (by simp)]

theorem rstripBy_eq_self_of_all {p : Char → Bool} (s : Chars)
    (h : ∀ c ∈ s, p c = false) : rstripBy p s = s := by
  unfold rstripBy
  rw [dropWhile_eq_self_of_all s.reverse (fun c hc => h c (List.mem_reverse.mp hc)),
    List.reverse_reverse]

theorem pyStrip_eq_self_of_all (s : Chars)
    (h : ∀ c ∈ s, isPySpace c = false) : pyStrip s = s := by
  unfold pyStrip lstripBy
  rw [dropWhile_eq_self_of_all s h, rstripBy_eq_self_of_all s h]

theorem digit_not_space {c : Char} (h : isPyDigit c = true) :
    isPySpace c = false := by
  cases hsp : isPySpace c
  · rfl
  · exfalso
    simp only [isPySpace, Bool.or_eq_true, decide_eq_true_eq] at hsp
    rcases hsp with ((((h1 | h1) | h1) | h1) | h1) | h1 <;>
      (subst h1; exact absurd h (by decide))

theorem digit_ne_char {c x : Char} (h : isPyDigit c = true)
    (hx : isPyDigit x = false) : c ≠ x := by
  intro he; subst he; rw [h] at hx; exact Bool.noConfusion hx

theorem hasChar_iff {c : Char} {s : Chars} : hasChar c s = true ↔ c ∈ s := by
  simp [hasChar, List.contains, List.elem_iff]

theorem splitAll_ne_nil (sep : Char) (l : Chars) : splitAll sep l ≠ [] := by
  cases l with
  | nil => simp [splitAll]
  | cons c rest =>
    simp only [splitAll]
    split
    · simp
    · split <;> simp

theorem splitAll_length_ge_two {sep : Char} {l : Chars} (h : sep ∈ l) :
    2 ≤ (splitAll sep l).length := by
  induction l with
  | nil => cases h
  | cons c rest ih =>
    simp only [splitAll]
    by_cases hc : c = sep
    · simp only [if_pos hc, List.length_cons]
      have := List.length_pos.mpr (splitAll_ne_nil sep rest)
      omega
    · have hm : sep ∈ rest := by
        rcases List.mem_cons.mp h with h1 | h1
        · exact absurd h1.symm hc
        · exact h1
      have h2 := ih hm
      simp only [if_neg hc]
      cases hs : splitAll sep rest with
      | nil => exact absurd hs (splitAll_ne_nil sep rest)
      | cons piece pieces =>
        rw [hs] at h2
        simpa using h2

theorem parseAccParts_length {l : List Chars} {r : List AccPart}
    (h : parseAccParts l = some r) : r.length = l.length := by
  induction l generalizing r with
  | nil => simp [parseAccParts] at h; simp [← h]
  | cons p rest ih =>
    simp only [parseAccParts] at h
    cases h1 : parseAccSlashPart p with
    | none => rw [h1] at h; exact absurd h (by simp)
    | some a =>
      cases h2 : parseAccParts rest with
      | none => rw [h1, h2] at h; exact absurd h (by simp)
      | some l2 =>
        rw [h1, h2] at h
        simp only [Option.some.injEq] at h
        subst h
        simp [ih h2]

-- -----------------------------------------------------------------
-- Claim C4: idempotence of fix_ocr_errors_contextual.
-- -----------------------------------------------------------------

/-- C4: the line-level OCR corrector is claimed idempotent, but the
`' lnf '` → `' Inf '` replacement is non-overlapping while its occurrences
can overlap: on `" lnf lnf "` one pass yields `" Inf lnf "` and a second
pass changes it again to `" Inf Inf "`, so
`fix_ocr_errors_contextual (fix_ocr_errors_contextual s) ≠
fix_ocr_errors_contextual s` at `s = " lnf lnf "`. -/
theorem fix_ocr_not_idempotent :
    fix_ocr_errors_contextual " lnf lnf " = " Inf lnf " ∧
    fix_ocr_errors_contextual (fix_ocr_errors_contextual " lnf lnf ") = " Inf Inf " ∧
    fix_ocr_errors_contextual (fix_ocr_errors_contextual " lnf lnf ") ≠
      fix_ocr_errors_contextual " lnf lnf " := by
  refine ⟨by decide, by decide, ?_⟩
  intro h
  have h1 : fix_ocr_errors_contextual " lnf lnf " = " Inf lnf " := by decide
  have h2 : fix_ocr_errors_contextual (fix_ocr_errors_contextual " lnf lnf ") =
      " Inf Inf " := by decide
  rw [h2, h1] at h
  exact absurd h (by decide)

-- -----------------------------------------------------------------
-- Claim C2: the trailing '+' convention.
-- -----------------------------------------------------------------

/-- C2 counterexample: the trailing-`+` convention is not uniform.
`parse_acc "4+"` returns the integer 4, but `parse_strength "3+"` returns
the string `"3+"` unchanged, not the integer 3. -/
theorem parse_strength_plus_counterexample :
    parse_strength "3+" = some (.str "3+") ∧
    parse_strength "3+" ≠ some (.part (.num 3)) ∧
    parse_acc "4+" = some (.single (.num 4)) := by
  refine ⟨by decide, ?_, by decide⟩
  intro h
  have h1 : parse_strength "3+" = some (.str "3+") := by decide
  rw [h1] at h
  exact absurd h (by decide)

theorem digits_rstripPlus {d : Chars} (hd : d.all isPyDigit = true) :
    rstripPlus (d ++ ['+']) = d := by
  unfold rstripPlus rstripBy
  rw [List.reverse_append, show (['+'] : Chars).reverse = ['+'] from rfl,
    List.singleton_append, List.dropWhile_cons]
  rw [if_pos (by decide)]
  rw [dropWhile_eq_self_of_all, List.reverse_reverse]
  intro c hc
  have hcd : c ∈ d := List.mem_reverse.mp hc
  have := List.all_eq_true.mp hd c hcd
  simp only [decide_eq_false_iff_not]
  exact digit_ne_char this (by decide)

theorem digits_plus_strip {d : Chars} (hd : d.all isPyDigit = true) :
    pyStrip (d ++ ['+']) = d ++ ['+'] := by
  apply pyStrip_eq_self_of_all
  intro c hc
  rcases List.mem_append.mp hc with h1 | h1
  · exact digit_not_space (List.all_eq_true.mp hd c h1)
  · simp at h1; subst h1; decide

theorem digits_plus_not_lower_eq {d : Chars} (t : Chars)
    (ht : '+' ∉ t) : pyLower (d ++ ['+']) ≠ t := by
  intro he
  have : '+' ∈ pyLower (d ++ ['+']) := by
    unfold pyLower
    exact List.mem_map.mpr ⟨'+', by simp, by decide⟩
  rw [he] at this
  exact ht this

theorem digits_plus_ne {d : Chars} (hd : d.all isPyDigit = true)
    (hne : d ≠ []) (t : Chars) (ht : ∀ c ∈ t, isPyDigit c = false) :
    d ++ ['+'] ≠ t := by
  intro he
  cases d with
  | nil => exact hne rfl
  | cons c0 rest =>
    have hc0 : c0 ∈ t := by rw [← he]; simp
    have h1 := List.all_eq_true.mp hd c0 (by simp)
    have h2 := ht c0 hc0
    rw [h1] at h2
    exact Bool.noConfusion h2

theorem digits_plus_no_slash {d : Chars} (hd : d.all isPyDigit = true) :
    hasChar '/' (d ++ ['+']) = false := by
  rcases Bool.eq_false_or_eq_true (hasChar '/' (d ++ ['+'])) with ht | hf
  · exfalso
    have := hasChar_iff.mp ht
    rcases List.mem_append.mp this with h1 | h1
    · have := List.all_eq_true.mp hd '/' h1
      exact absurd this (by decide)
    · simp at h1
  · exact hf

theorem digits_plus_endsWith (d : Chars) :
    endsWith "+".data (d ++ ['+']) = true := by
  unfold endsWith
  rw [List.reverse_append]
  simp [List.isPrefixOf]

/-- C2 amended: `parse_acc` strips a trailing `+` from a digit token and
returns the integer, but `parse_strength` does that only for the parts of
a slash-joined pair; a single digits-`+` token is returned by
`parse_strength` as the unchanged string (`"3+"` stays `"3+"` while
`parse_acc "4+"` is 4). -/
theorem trailing_plus_convention (d : Chars)
    (hd : d.all isPyDigit = true) (hne : d ≠ []) :
    parse_acc (String.mk (d ++ ['+'])) =
      some (.single (.num (toNatDigits d))) ∧
    parse_strength (String.mk (d ++ ['+'])) =
      some (.str (String.mk (d ++ ['+']))) := by
  have hstrip : pyStrip (d ++ ['+']) = d ++ ['+'] := digits_plus_strip hd
  have hdig : isDigits d = true := by
    unfold isDigits
    cases d with
    | nil => exact absurd rfl hne
    | cons c rest =>
      simp only [List.isEmpty_cons, Bool.not_false, Bool.true_and]
      exact hd
  have hempty : (d ++ ['+']).isEmpty = false := by
    cases d <;> simp
  have hxx : (pyLower (d ++ ['+']) = "xx".data) = False :=
    eq_false (digits_plus_not_lower_eq "xx".data (by decide))
  have hx : (pyLower (d ++ ['+']) = "x".data) = False :=
    eq_false (digits_plus_not_lower_eq "x".data (by decide))
  have hpp : (d ++ ['+'] = "++".data) = False :=
    eq_false (digits_plus_ne hd hne "++".data (by decide))
  have hstar : (d ++ ['+'] = "*".data) = False :=
    eq_false (digits_plus_ne hd hne "*".data (by decide))
  have hslash : hasChar '/' (d ++ ['+']) = false := digits_plus_no_slash hd
  have hplus : endsWith "+".data (d ++ ['+']) = true := digits_plus_endsWith d
  have hdice : isDiceNotation (d ++ ['+']) = false := by
    unfold isDiceNotation
    cases d with
    | nil => exact absurd rfl hne
    | cons c0 rest =>
      have h1 := List.all_eq_true.mp hd c0 (by simp)
      have hne0 : ('[' == c0) = false := by
        rcases Bool.eq_false_or_eq_true ('[' == c0) with ht | hf
        · exfalso
          have : '[' = c0 := eq_of_beq ht
          exact digit_ne_char h1 (by decide) this.symm
        · exact hf
      simp only [List.cons_append, startsWith, List.isPrefixOf, hne0,
        Bool.false_and, Bool.and_self]
  constructor
  · show parse_acc (String.mk (d ++ ['+'])) = _
    unfold parse_acc
    simp only [show (String.mk (d ++ ['+'])).data = d ++ ['+'] from rfl,
      hstrip, hempty, hxx, hx, hpp, hstar, hslash, hplus,
      digits_rstripPlus hd, hdig, Bool.false_eq_true, if_false, if_true,
      Bool.or_self, decide_False, or_self, decide_True]
  · show parse_strength (String.mk (d ++ ['+'])) = _
    unfold parse_strength
    have hempty2 : (String.mk (d ++ ['+'])).data.isEmpty = false := hempty
    simp only [show (String.mk (d ++ ['+'])).data = d ++ ['+'] from rfl,
      hstrip, hempty2, hdice, hslash, hplus, Bool.false_eq_true, if_false,
      if_true]

-- -----------------------------------------------------------------
-- Claim C5: accuracy parsing.
-- -----------------------------------------------------------------

/-- C5: `parse_acc "3+/4+"` is the stationary/moving pair (3, 4), the
literal tokens `xx`, `++`, `*` pass through as sentinel strings, and any
accuracy whose stripped text contains a slash parses to a pair or to
nothing — never to a flattened single value. -/
theorem parse_acc_claims :
    parse_acc "3+/4+" = some (.pair (.num 3) (.num 4)) ∧
    parse_acc "xx" = some (.single (.sent "xx")) ∧
    parse_acc "++" = some (.single (.sent "++")) ∧
    parse_acc "*" = some (.single (.sent "*")) ∧
    (∀ s : String, hasChar '/' (pyStrip s.data) = true →
      parse_acc s = none ∨ ∃ a b, parse_acc s = some (.pair a b)) := by
  refine ⟨by decide, by decide, by decide, by decide, ?_⟩
  intro s hs
  have hmem : '/' ∈ pyStrip s.data := hasChar_iff.mp hs
  unfold parse_acc
  have hne : (pyStrip s.data).isEmpty = false := by
    cases htl : pyStrip s.data with
    | nil => rw [htl] at hmem; cases hmem
    | cons a b => simp
  have hxx : (pyLower (pyStrip s.data) = "xx".data) = False := by
    apply eq_false
    intro he
    have hm2 : '/' ∈ pyLower (pyStrip s.data) :=
      List.mem_map.mpr ⟨'/', hmem, by decide⟩
    rw [he] at hm2
    exact absurd hm2 (by decide)
  have hx : (pyLower (pyStrip s.data) = "x".data) = False := by
    apply eq_false
    intro he
    have hm2 : '/' ∈ pyLower (pyStrip s.data) :=
      List.mem_map.mpr ⟨'/', hmem, by decide⟩
    rw [he] at hm2
    exact absurd hm2 (by decide)
  have hpp : (pyStrip s.data = "++".data) = False := by
    apply eq_false
    intro he
    rw [he] at hmem
    exact absurd hmem (by decide)
  have hstar : (pyStrip s.data = "*".data) = False := by
    apply eq_false
    intro he
    rw [he] at hmem
    exact absurd hmem (by decide)
  simp only [hne, hxx, hx, hpp, hstar, hs, Bool.false_eq_true, if_false,
    if_true, or_self, decide_False]
  cases hp : parseAccParts (splitAll '/' (pyStrip s.data)) with
  | none => left; rfl
  | some r =>
    have hlen : r.length = (splitAll '/' (pyStrip s.data)).length :=
      parseAccParts_length hp
    have h2 : 2 ≤ (splitAll '/' (pyStrip s.data)).length :=
      splitAll_length_ge_two hmem
    rw [← hlen] at h2
    match r, h2 with
    | a :: b :: rest, _ =>
      cases rest with
      | nil => right; exact ⟨a, b, rfl⟩
      | cons c more => left; rfl

-- -----------------------------------------------------------------
-- Claim C6: header parsing.
-- -----------------------------------------------------------------

theorem mkPoints_str {tok : Chars} {s : String}
    (h : mkPoints tok = PtsVal.str s) : hasChar '/' s.data = true := by
  unfold mkPoints at h
  by_cases hc : hasChar '/' tok = true
  · rw [if_pos hc] at h
    injection h with h
    rw [← h]
    exact hc
  · rw [if_neg hc] at h
    exact absurd h (by simp)

theorem headerAttempt1_points {lines : List String} {nm : String}
    {pts : PtsVal} {idx : Nat}
    (h : headerAttempt1 lines = some (nm, pts, idx)) :
    ∀ s, pts = PtsVal.str s → hasChar '/' s.data = true := by
  intro s hstr
  unfold headerAttempt1 at h
  obtain ⟨p, _, hp⟩ := List.exists_of_findSome?_eq_some h
  split at hp
  · simp only [Option.some.injEq, Prod.mk.injEq] at hp
    subst hstr
    exact mkPoints_str hp.2.1
  · exact absurd hp (by simp)

theorem headerAttempt2_points {lines : List String} {nm : String}
    {pts : PtsVal} {idx : Nat}
    (h : headerAttempt2 lines = some (nm, pts, idx)) :
    ∀ s, pts = PtsVal.str s → hasChar '/' s.data = true := by
  intro s hstr
  unfold headerAttempt2 at h
  obtain ⟨i, _, hp⟩ := List.exists_of_findSome?_eq_some h
  split at hp
  · split at hp
    · simp only [Option.some.injEq, Prod.mk.injEq] at hp
      rw [← hp.2.1] at hstr
      exact absurd hstr (by simp)
    · exact absurd hp (by simp)
  · exact absurd hp (by simp)

theorem headerAttempt3_points {lines : List String} {nm : String}
    {pts : PtsVal} {idx : Nat}
    (h : headerAttempt3 lines = some (nm, pts, idx)) :
    ∀ s, pts = PtsVal.str s → hasChar '/' s.data = true := by
  intro s hstr
  unfold headerAttempt3 at h
  obtain ⟨i, _, hp⟩ := List.exists_of_findSome?_eq_some h
  split at hp
  · split at hp
    · simp only [Option.some.injEq, Prod.mk.injEq] at hp
      subst hstr
      exact mkPoints_str hp.2.1
    · exact absurd hp (by simp)
  · exact absurd hp (by simp)

theorem headerAttempt4_points {lines : List String} {nm : String}
    {pts : PtsVal} {idx : Nat}
    (h : headerAttempt4 lines = some (nm, pts, idx)) :
    ∀ s, pts = PtsVal.str s → hasChar '/' s.data = true := by
  intro s hstr
  unfold headerAttempt4 at h
  obtain ⟨i, _, hp⟩ := List.exists_of_findSome?_eq_some h
  split at hp
  · split at hp
    · simp only [Option.some.injEq, Prod.mk.injEq] at hp
      subst hstr
      exact mkPoints_str hp.2.1
    · exact absurd hp (by simp)
  · exact absurd hp (by simp)

/-- C6: `"GRENADIERS - 120 pts"` parses to name `GRENADIERS` with integer
points 120, `"RAIDERS - 0/20 pts"` keeps the points as the string
`"0/20"`, and whenever any header form yields string points the token
contains a slash (a plain digit token always becomes an integer). -/
theorem header_parsing_claims :
    (parse_card_text id "" grenadiersCard).map
      (Option.map (fun u => (u.name, u.points))) =
      some (some ("GRENADIERS", PtsVal.int 120)) ∧
    (parse_card_text id "" raidersCard).map
      (Option.map (fun u => (u.name, u.points))) =
      some (some ("RAIDERS", PtsVal.str "0/20")) ∧
    (∀ (lines : List String) (nm : String) (pts : PtsVal) (idx : Nat),
      headerSearch lines = some (nm, pts, idx) →
      ∀ s, pts = PtsVal.str s → hasChar '/' s.data = true) := by
  refine ⟨by decide, by decide, ?_⟩
  intro lines nm pts idx h s hstr
  unfold headerSearch at h
  cases h1 : headerAttempt1 lines with
  | some v =>
    rw [h1] at h
    simp only [Option.orElse] at h
    injection h with h
    subst h
    exact headerAttempt1_points h1 s hstr
  | none =>
    rw [h1] at h
    simp only [Option.orElse] at h
    cases h2 : headerAttempt2 lines with
    | some v =>
      rw [h2] at h
      simp only [Option.orElse] at h
      injection h with h
      subst h
      exact headerAttempt2_points h2 s hstr
    | none =>
      rw [h2] at h
      simp only [Option.orElse] at h
      cases h3 : headerAttempt3 lines with
      | some v =>
        rw [h3] at h
        simp only [Option.orElse] at h
        injection h with h
        subst h
        exact headerAttempt3_points h3 s hstr
      | none =>
        rw [h3] at h
        simp only [Option.orElse] at h
        exact headerAttempt4_points h s hstr

-- -----------------------------------------------------------------
-- Claim C7: stat-block parsing.
-- -----------------------------------------------------------------

/-- C7: the line `"Inf(S), M4\", Q3, T1/1/1"` matches `STAT_RE` and
produces unit class `Inf(S)`, movement 4, quality 3, and the front/side/
rear toughness triple; and whenever the side or rear group is absent a
present toughness is a scalar, never a triple. -/
theorem stat_block_claims :
    (reMatch STAT_RE "Inf(S), M4\", Q3, T1/1/1".data).map
        (fun p => buildStats p.1) =
      some (.ok ("Inf(S)",
        ({ movement := 4, quality := .num 3,
           toughness := some (.triple (.num 1) (.num 1) (.num 1)) } : Stats))) ∧
    (parse_card_text id "" grenadiersCard).map
        (Option.map (fun u => (u.unitClass, u.stats))) =
      some (some ("Inf(S)",
        ({ movement := 4, quality := .num 3,
           toughness := some (.triple (.num 1) (.num 1) (.num 1)) } : Stats))) ∧
    (parse_card_text id "" capCard).map
        (Option.map (fun u => u.stats.toughness)) =
      some (some (some (.single (.num 2)))) ∧
    (∀ (caps : Caps) (ut : String) (st : Stats),
      buildStats caps = .ok (ut, st) →
      (capTruthy caps 7).isSome = true →
      (capTruthy caps 8 = none ∨ capTruthy caps 9 = none) →
      ∃ t, st.toughness = some (.single t)) := by
  refine ⟨by decide, by decide, by decide, ?_⟩
  intro caps ut st h h7 h89
  unfold buildStats at h
  dsimp only at h
  split at h
  · exact absurd h (by simp)
  · injection h with h
    rw [Prod.mk.injEq] at h
    obtain ⟨hu, hs⟩ := h
    obtain ⟨tf, h7e⟩ := Option.isSome_iff_exists.mp h7
    have hst := congrArg Stats.toughness hs
    dsimp only at hst
    rw [h7e] at hst
    rcases h89 with h8 | h9
    · rw [h8] at hst
      cases h9c : capTruthy caps 9 <;> rw [h9c] at hst <;>
        exact ⟨parse_toughness_value (String.mk tf), hst.symm⟩
    · rw [h9] at hst
      cases h8c : capTruthy caps 8 <;> rw [h8c] at hst <;>
        first
          | exact ⟨parse_toughness_value (String.mk tf), hst.symm⟩
          | exact ⟨parse_toughness_value (String.mk tf), hst.symm⟩

-- -----------------------------------------------------------------
-- Claims C8 and C9: failure behaviour of parse_card_text.
-- -----------------------------------------------------------------

/-- C8: for every input, when no header form is found in the preprocessed
lines, or when a header is found but no stat line is found in its
lookahead window, `parse_card_text` returns Python `None` without raising
(`some none` in the embedding: the outer `some` is exception-freedom). -/
theorem parse_card_failure_claims (nfkd : String → String)
    (card_text : String) (lbs0 : List LineBox) :
    (headerSearch (preprocessLines card_text lbs0).lines = none →
      parse_card_text nfkd card_text lbs0 = some none) ∧
    (∀ (nm : String) (pts : PtsVal) (hidx : Nat),
      headerSearch (preprocessLines card_text lbs0).lines = some (nm, pts, hidx) →
      statSearch (preprocessLines card_text lbs0).lines
        (preprocessLines card_text lbs0).hasFmt hidx = none →
      parse_card_text nfkd card_text lbs0 = some none) := by
  constructor
  · intro hh
    unfold parse_card_text
    dsimp only
    by_cases he : (preprocessLines card_text lbs0).lines0.isEmpty
    · rw [if_pos he]
    · rw [if_neg he, hh]
  · intro nm pts hidx hh hs
    unfold parse_card_text
    dsimp only
    by_cases he : (preprocessLines card_text lbs0).lines0.isEmpty
    · rw [if_pos he]
    · rw [if_neg he, hh]
      dsimp only
      rw [hs]

theorem mergeWeaponLinesGo_nil (fuel i : Nat) :
    mergeWeaponLinesGo [] fuel i = [] := by
  cases fuel with
  | zero => rfl
  | succ f => simp [mergeWeaponLinesGo]

theorem preprocess_lines_nil (card_text : String) (lbs0 : List LineBox)
    (h : (preprocessLines card_text lbs0).lines0.isEmpty = true) :
    (preprocessLines card_text lbs0).lines = [] := by
  unfold preprocessLines
  unfold preprocessLines at h
  dsimp only at h ⊢
  rw [List.isEmpty_iff] at h
  rw [h]
  have hm : mergeUnitTypeLines [] = [] := rfl
  split <;>
    simp [hm, mergeWeaponLines, mergeWeaponLinesGo_nil]

/-- C9: a weapon whose accuracy token does not parse (`parse_acc` returns
`None`) is dropped on its own: the concrete two-weapon card keeps only the
well-formed weapon, and in general once a header and a stat line are
found the whole-card parse always produces a unit record (it never fails
and never raises past that point). -/
theorem weapon_drop_claims :
    parse_acc "?" = none ∧
    (parse_card_text id "" twoWeaponCard).map
        (Option.map (fun u => u.weapons.map Weapon.name)) =
      some (some ["2B2 Cannon"]) ∧
    (parse_card_text id "" twoWeaponCard).map
        (Option.map (fun u => u.name)) = some (some ("X UNIT")) ∧
    (∀ (nfkd : String → String) (card_text : String) (lbs0 : List LineBox)
        (nm : String) (pts : PtsVal) (hidx : Nat) (sf : StatFound),
      headerSearch (preprocessLines card_text lbs0).lines = some (nm, pts, hidx) →
      statSearch (preprocessLines card_text lbs0).lines
        (preprocessLines card_text lbs0).hasFmt hidx = some (.ok sf) →
      ∃ u, parse_card_text nfkd card_text lbs0 = some (some u)) := by
  refine ⟨by decide, by decide, by decide, ?_⟩
  intro nfkd card_text lbs0 nm pts hidx sf hh hs
  unfold parse_card_text
  dsimp only
  by_cases he : (preprocessLines card_text lbs0).lines0.isEmpty
  · exfalso
    have := preprocess_lines_nil card_text lbs0 he
    rw [this] at hh
    have : headerSearch [] = none := by decide
    rw [this] at hh
    exact Option.noConfusion hh
  · rw [if_neg he, hh]
    dsimp only
    rw [hs]
    exact ⟨_, rfl⟩

-- -----------------------------------------------------------------
-- Claim C10: empty slugs and the final deduplication pass.
-- -----------------------------------------------------------------

theorem map_id_of_all {f : Char → Char} (l : Chars)
    (h : ∀ c ∈ l, f c = c) : l.map f = l := by
  induction l with
  | nil => rfl
  | cons c cs ih =>
    rw [List.map_cons, h c (by simp), ih (fun x hx => h x (by simp [hx]))]

theorem takeWhile_eq_self_of_all {p : Char → Bool} (s : Chars)
    (h : ∀ c ∈ s, p c = true) : s.takeWhile p = s := by
  induction s with
  | nil => rfl
  | cons c cs ih =>
    rw [List.takeWhile_cons, if_pos (h c (by simp)),
      ih (fun x hx => h x (by simp [hx]))]

set_option maxHeartbeats 1000000 in
theorem matchAll_rep_one (p : Char → Bool) (prev : Option Char) (s : Chars)
    (caps : Caps) :
    matchAll (RE.rep p 1 false) prev s caps =
      (let run := s.takeWhile p
       let n := run.length
       if n < 1 then []
       else
         let prevAt := fun i =>
           if i = 0 then prev else (run.get? (i - 1)).orElse (fun _ => prev)
         let lens := (List.range (n + 1 - 1)).map (fun k => n - k)
         lens.map (fun i => (prevAt i, s.drop i, caps))) := by
  rw [matchAll]
  rfl

theorem reMatchAt_rep_nil {p : Char → Bool} (prev : Option Char) :
    reMatchAt (RE.rep p 1 false) prev [] = none := by
  unfold reMatchAt
  rw [matchAll_rep_one]
  rfl

theorem reMatchAt_rep_all {p : Char → Bool} (prev : Option Char) (c : Char)
    (cs : Chars) (h : ∀ x ∈ c :: cs, p x = true) :
    reMatchAt (RE.rep p 1 false) prev (c :: cs) =
      some ([(0, c :: cs)], []) := by
  unfold reMatchAt
  rw [matchAll_rep_one, takeWhile_eq_self_of_all _ h]
  dsimp only
  rw [if_neg (by simp)]
  have h1 : (c :: cs).length + 1 - 1 = cs.length + 1 := by simp
  rw [h1, List.range_succ_eq_map]
  simp only [List.map_cons, Nat.sub_zero, List.drop_length, List.length_nil,
    Nat.sub_zero, List.take_length]

theorem reSub_all_dash {p : Char → Bool} (c : Char) (cs : Chars)
    (h : ∀ x ∈ c :: cs, p x = true) :
    reSub (RE.rep p 1 false) [.lit "-"] (c :: cs) = ['-'] := by
  show reSubAux _ _ ((c :: cs).length + 1) none (c :: cs) = _
  have hlen : (c :: cs).length + 1 = (cs.length + 1) + 1 := by simp
  rw [hlen]
  unfold reSubAux
  rw [reMatchAt_rep_all none c cs h]
  dsimp only
  rw [if_pos (by simp)]
  have hz : reSubAux (RE.rep p 1 false) [Repl.lit "-"] (cs.length + 1)
      (((c :: cs).take ((c :: cs).length - 0)).getLast?.orElse (fun _ => none))
      [] = [] := by
    unfold reSubAux
    rw [reMatchAt_rep_nil]
  simp only [List.length_nil]
  rw [hz]
  rfl

theorem stripChar_dash : stripChar '-' ['-'] = [] := by decide

theorem dedupeUnitsGo_sublist (units : List UnitRec) :
    ∀ seen, (dedupeUnitsGo units seen).Sublist units := by
  induction units with
  | nil => intro seen; simp [dedupeUnitsGo]
  | cons u rest ih =>
    intro seen
    unfold dedupeUnitsGo
    split
    · exact (ih seen).cons u
    · exact (ih (u.id :: seen)).cons₂ u

theorem contains_iff_mem {l : List String} {a : String} :
    l.contains a = true ↔ a ∈ l := by
  simp [List.contains, List.elem_iff]

theorem dedupeUnitsGo_id_ne (units : List UnitRec) :
    ∀ seen, ∀ u ∈ dedupeUnitsGo units seen, u.id ≠ "" ∧ u.id ∉ seen := by
  induction units with
  | nil => intro seen u hu; exact absurd hu (by simp [dedupeUnitsGo])
  | cons v rest ih =>
    intro seen u hu
    unfold dedupeUnitsGo at hu
    split at hu
    · exact ih seen u hu
    · rename_i hcond
      rcases List.mem_cons.mp hu with h1 | h1
      · subst h1
        refine ⟨fun he => hcond (Or.inl he), fun hmem => ?_⟩
        exact hcond (Or.inr (contains_iff_mem.mpr hmem))
      · have h2 := ih (v.id :: seen) u h1
        exact ⟨h2.1, fun hmem => h2.2 (List.mem_cons_of_mem _ hmem)⟩

theorem dedupeUnitsGo_nodup (units : List UnitRec) :
    ∀ seen, ((dedupeUnitsGo units seen).map UnitRec.id).Nodup := by
  induction units with
  | nil => intro seen; simp [dedupeUnitsGo]
  | cons v rest ih =>
    intro seen
    unfold dedupeUnitsGo
    split
    · exact ih seen
    · rw [List.map_cons, List.nodup_cons]
      refine ⟨fun hmem => ?_, ih (v.id :: seen)⟩
      obtain ⟨u, hu, hid⟩ := List.mem_map.mp hmem
      have h2 := dedupeUnitsGo_id_ne rest (v.id :: seen) u hu
      exact h2.2 (by rw [hid]; exact List.mem_cons_self _ _)

theorem dedupeUnitsGo_first (units : List UnitRec) :
    ∀ seen, ∀ u ∈ units, u.id ≠ "" → u.id ∉ seen →
      ∃ v, units.find? (fun x => x.id == u.id) = some v ∧
        v ∈ dedupeUnitsGo units seen := by
  induction units with
  | nil => intro seen u hu; exact absurd hu (by simp)
  | cons w rest ih =>
    intro seen u hu hne hnotseen
    by_cases hw : w.id = u.id
    · refine ⟨w, ?_, ?_⟩
      · have hbeq : (w.id == u.id) = true := beq_iff_eq.mpr hw
        simp [List.find?, hbeq]
      · unfold dedupeUnitsGo
        split
        · rename_i hcond
          exfalso
          rcases hcond with h1 | h1
          · exact hne (hw ▸ h1)
          · exact hnotseen (hw ▸ contains_iff_mem.mp h1)
        · exact List.mem_cons_self _ _
    · have hur : u ∈ rest := by
        rcases List.mem_cons.mp hu with h1 | h1
        · exact absurd (congrArg UnitRec.id h1.symm) hw
        · exact h1
      have hbeq : (w.id == u.id) = false := beq_eq_false_iff_ne.mpr hw
      have hfind : (w :: rest).find? (fun x => x.id == u.id) =
          rest.find? (fun x => x.id == u.id) := by
        simp [List.find?, hbeq]
      unfold dedupeUnitsGo
      split
      · obtain ⟨v, hv1, hv2⟩ := ih seen u hur hne hnotseen
        exact ⟨v, by rw [hfind]; exact hv1, hv2⟩
      · have hnot2 : u.id ∉ w.id :: seen := by
          intro hmem
          rcases List.mem_cons.mp hmem with h1 | h1
          · exact hw h1.symm
          · exact hnotseen h1
        obtain ⟨v, hv1, hv2⟩ := ih (w.id :: seen) u hur hne hnot2
        exact ⟨v, by rw [hfind]; exact hv1, List.mem_cons_of_mem _ hv2⟩

theorem reSub_rep_nil {p : Char → Bool} (tmpl : List Repl) :
    reSub (RE.rep p 1 false) tmpl [] = [] := by
  show reSubAux _ _ (List.length ([] : Chars) + 1) none [] = _
  unfold reSubAux
  rw [reMatchAt_rep_nil]

/-- C10: a display name with no ASCII alphanumeric characters slugifies to
the empty string (given an NFKD that fixes it and an all-ASCII name), and
the final per-run deduplication keeps only units with non-empty ids, makes
the kept ids pairwise distinct, preserves order (the result is a sublist
of the input), and for every unit with a non-empty id the first occurrence
of that id in the input is kept. -/
theorem slug_dedup_claims :
    (∀ (nfkd : String → String) (name : String),
        nfkd name = name →
        (∀ c ∈ name.data, c.toNat < 128) →
        (∀ c ∈ name.data, isAsciiAlnum c = false) →
        slugify nfkd name = "") ∧
    (∀ units : List UnitRec, ∀ u ∈ dedupeUnitsById units, u.id ≠ "") ∧
    (∀ units : List UnitRec, ((dedupeUnitsById units).map UnitRec.id).Nodup) ∧
    (∀ units : List UnitRec, (dedupeUnitsById units).Sublist units) ∧
    (∀ units : List UnitRec, ∀ u ∈ units, u.id ≠ "" →
        ∃ v, units.find? (fun x => x.id == u.id) = some v ∧
          v ∈ dedupeUnitsById units) := by
  refine ⟨?_, ?_, ?_, ?_, ?_⟩
  · intro nfkd name hn hascii halnum
    unfold slugify
    dsimp only
    rw [hn]
    have hfilter : name.data.filter (fun c => c.toNat < 128) = name.data := by
      rw [List.filter_eq_self]
      intro a ha
      exact decide_eq_true (hascii a ha)
    rw [hfilter]
    have hsplit : ∀ c ∈ name.data, isAsciiUpper c = false ∧
        isAsciiLowerAlpha c = false ∧ isPyDigit c = false := by
      intro c hc
      have h0 := halnum c hc
      unfold isAsciiAlnum isAsciiAlpha at h0
      simp only [Bool.or_eq_false_iff] at h0
      exact ⟨h0.1.1, h0.1.2, h0.2⟩
    have hlow : pyLower name.data = name.data := by
      apply map_id_of_all
      intro c hc
      unfold asciiLower
      rw [if_neg]
      intro hcu
      exact absurd hcu (by rw [(hsplit c hc).1]; exact Bool.false_ne_true)
    rw [hlow]
    have hall : ∀ x ∈ name.data,
        (fun c => !(isAsciiLowerAlpha c || isPyDigit c)) x = true := by
      intro x hx
      obtain ⟨_, h1, h2⟩ := hsplit x hx
      simp [h1, h2]
    unfold SLUG_RE
    cases hnd : name.data with
    | nil =>
      rw [reSub_rep_nil]
      rfl
    | cons c cs =>
      rw [reSub_all_dash c cs (fun x hx => hall x (hnd ▸ hx))]
      rw [stripChar_dash]
  · intro units u hu
    exact (dedupeUnitsGo_id_ne units [] u hu).1
  · intro units
    exact dedupeUnitsGo_nodup units []
  · intro units
    exact dedupeUnitsGo_sublist units []
  · intro units u hu hne
    exact dedupeUnitsGo_first units [] u hu hne (by simp)

-- -----------------------------------------------------------------
-- Claim C1: the OCR-to-PDF aligner.
-- -----------------------------------------------------------------

theorem contains_iff_mem_nat {l : List Nat} {a : Nat} :
    l.contains a = true ↔ a ∈ l := by
  simp [List.contains, List.elem_iff]

example (l : List LineBox) (n : Nat) : (l.drop n).tail = l.drop (n + 1) :=
  List.tail_drop l n

theorem bestLoop_spec (sim : String → String → ℚ) (s : String) (used : List Nat)
    (pdf : List LineBox) :
    ∀ (l : List LineBox) (i0 : Nat), pdf.drop i0 = l →
    ∀ (best : Option (Nat × LineBox)) (bestR : ℚ),
    (∀ j b, best = some (j, b) → j ∉ used ∧ pdf.get? j = some b ∧
      bestR = sim s (normalize_for_matching b.text) ∧ 0 < bestR) →
    (best = none → bestR = 0) →
    (∀ k, k < i0 → k ∉ used →
      sim s (normalize_for_matching ((pdf.get? k).getD { text := "" }).text) ≤ bestR) →
    ((∀ j b r, bestLoop sim s used l i0 (best, bestR) = (some (j, b), r) →
        j ∉ used ∧ pdf.get? j = some b ∧
        r = sim s (normalize_for_matching b.text) ∧ 0 < r ∧
        (∀ k, k < pdf.length → k ∉ used →
          sim s (normalize_for_matching ((pdf.get? k).getD { text := "" }).text) ≤ r)) ∧
     (∀ r, bestLoop sim s used l i0 (best, bestR) = (none, r) →
        (∀ k, k < pdf.length → k ∉ used →
          sim s (normalize_for_matching ((pdf.get? k).getD { text := "" }).text) ≤ 0))) := by
  intro l
  induction l with
  | nil =>
    intro i0 hdrop best bestR haccS haccN hscan
    have hlen : pdf.length ≤ i0 := by
      have h1 := congrArg List.length hdrop
      rw [List.length_drop] at h1
      simp at h1
      omega
    constructor
    · intro j b r hres
      simp only [bestLoop] at hres
      rw [Prod.mk.injEq] at hres
      obtain ⟨h1, h2⟩ := hres
      obtain ⟨hj1, hj2, hj3, hj4⟩ := haccS j b h1
      exact ⟨hj1, hj2, h2 ▸ hj3, h2 ▸ hj4,
        fun k hk hku => h2 ▸ hscan k (Nat.lt_of_lt_of_le hk hlen) hku⟩
    · intro r hres
      simp only [bestLoop] at hres
      rw [Prod.mk.injEq] at hres
      obtain ⟨h1, h2⟩ := hres
      have hz := haccN h1
      intro k hk hku
      have := hscan k (Nat.lt_of_lt_of_le hk hlen) hku
      rw [hz] at this
      exact this
  | cons bhd rest ih =>
    intro i0 hdrop best bestR haccS haccN hscan
    have hget : pdf.get? i0 = some bhd := by
      have h1 : (pdf.drop i0).get? 0 = pdf.get? (i0 + 0) := List.get?_drop pdf i0 0
      rw [hdrop] at h1
      simpa using h1.symm
    have hdrop1 : pdf.drop (i0 + 1) = rest := by
      rw [← List.tail_drop, hdrop]
      rfl
    rw [bestLoop]
    by_cases hc : used.contains i0
    · rw [if_pos hc]
      apply ih (i0 + 1) hdrop1 best bestR haccS haccN
      intro k hk hku
      rcases Nat.lt_succ_iff_lt_or_eq.mp hk with hk' | hk'
      · exact hscan k hk' hku
      · subst hk'
        exact absurd (contains_iff_mem_nat.mp hc) hku
    · rw [if_neg hc]
      have hi0 : i0 ∉ used := fun hm => hc (contains_iff_mem_nat.mpr hm)
      have hbr0 : 0 ≤ bestR := by
        cases hbest : best with
        | none => rw [haccN hbest]
        | some jb => exact le_of_lt (haccS jb.1 jb.2 (by rw [hbest])).2.2.2
      dsimp only
      by_cases hlt : bestR < sim s (normalize_for_matching bhd.text)
      · rw [if_pos hlt]
        apply ih (i0 + 1) hdrop1 (some (i0, bhd)) _
        · intro j b hjb
          injection hjb with hjb
          obtain ⟨h1, h2⟩ := Prod.mk.injEq _ _ _ _ ▸ hjb
          subst h1; subst h2
          exact ⟨hi0, hget, rfl, lt_of_le_of_lt hbr0 hlt⟩
        · intro hnone; exact absurd hnone (by simp)
        · intro k hk hku
          rcases Nat.lt_succ_iff_lt_or_eq.mp hk with hk' | hk'
          · exact le_of_lt (lt_of_le_of_lt (hscan k hk' hku) hlt)
          · subst hk'
            rw [hget]
            exact le_refl _
      · rw [if_neg hlt]
        apply ih (i0 + 1) hdrop1 best bestR haccS haccN
        intro k hk hku
        rcases Nat.lt_succ_iff_lt_or_eq.mp hk with hk' | hk'
        · exact hscan k hk' hku
        · subst hk'
          rw [hget]
          exact le_of_not_lt hlt

theorem assignLoop_cons_blank (sim : String → String → ℚ) (pdf : List LineBox)
    (o : String) (rest : List String) (used : List Nat)
    (h : (pyStrip o.data).isEmpty = true) :
    assignLoop sim pdf (o :: rest) used = none :: assignLoop sim pdf rest used := by
  rw [assignLoop, if_pos h]

theorem matchLoop_cons_blank (sim : String → String → ℚ) (pdf : List LineBox)
    (o : String) (rest : List String) (used : List Nat)
    (h : (pyStrip o.data).isEmpty = true) :
    matchLoop sim pdf (o :: rest) used =
      { text := o } :: matchLoop sim pdf rest used := by
  rw [matchLoop, if_pos h]

theorem assignLoop_cons_hit (sim : String → String → ℚ) (pdf : List LineBox)
    (o : String) (rest : List String) (used : List Nat) (j : Nat) (b : LineBox)
    (r : ℚ) (h : (pyStrip o.data).isEmpty = false)
    (hb : bestLoop sim (normalize_for_matching o) used pdf 0 (none, 0) =
      (some (j, b), r))
    (hr : (6:ℚ)/10 < r) :
    assignLoop sim pdf (o :: rest) used =
      some j :: assignLoop sim pdf rest (j :: used) := by
  rw [assignLoop, if_neg (by simp [h]), hb]
  dsimp only
  rw [if_pos hr]

theorem matchLoop_cons_hit (sim : String → String → ℚ) (pdf : List LineBox)
    (o : String) (rest : List String) (used : List Nat) (j : Nat) (b : LineBox)
    (r : ℚ) (h : (pyStrip o.data).isEmpty = false)
    (hb : bestLoop sim (normalize_for_matching o) used pdf 0 (none, 0) =
      (some (j, b), r))
    (hr : (6:ℚ)/10 < r) :
    matchLoop sim pdf (o :: rest) used =
      { text := o, is_bold := b.is_bold, is_italic := b.is_italic } ::
        matchLoop sim pdf rest (j :: used) := by
  rw [matchLoop, if_neg (by simp [h]), hb]
  dsimp only
  rw [if_pos hr]

theorem assignLoop_cons_low (sim : String → String → ℚ) (pdf : List LineBox)
    (o : String) (rest : List String) (used : List Nat) (j : Nat) (b : LineBox)
    (r : ℚ) (h : (pyStrip o.data).isEmpty = false)
    (hb : bestLoop sim (normalize_for_matching o) used pdf 0 (none, 0) =
      (some (j, b), r))
    (hr : ¬ (6:ℚ)/10 < r) :
    assignLoop sim pdf (o :: rest) used = none :: assignLoop sim pdf rest used := by
  rw [assignLoop, if_neg (by simp [h]), hb]
  dsimp only
  rw [if_neg hr]

theorem matchLoop_cons_low (sim : String → String → ℚ) (pdf : List LineBox)
    (o : String) (rest : List String) (used : List Nat) (j : Nat) (b : LineBox)
    (r : ℚ) (h : (pyStrip o.data).isEmpty = false)
    (hb : bestLoop sim (normalize_for_matching o) used pdf 0 (none, 0) =
      (some (j, b), r))
    (hr : ¬ (6:ℚ)/10 < r) :
    matchLoop sim pdf (o :: rest) used =
      { text := o } :: matchLoop sim pdf rest used := by
  rw [matchLoop, if_neg (by simp [h]), hb]
  dsimp only
  rw [if_neg hr]

theorem assignLoop_cons_none (sim : String → String → ℚ) (pdf : List LineBox)
    (o : String) (rest : List String) (used : List Nat) (r : ℚ)
    (h : (pyStrip o.data).isEmpty = false)
    (hb : bestLoop sim (normalize_for_matching o) used pdf 0 (none, 0) =
      (none, r)) :
    assignLoop sim pdf (o :: rest) used = none :: assignLoop sim pdf rest used := by
  rw [assignLoop, if_neg (by simp [h]), hb]

theorem matchLoop_cons_none (sim : String → String → ℚ) (pdf : List LineBox)
    (o : String) (rest : List String) (used : List Nat) (r : ℚ)
    (h : (pyStrip o.data).isEmpty = false)
    (hb : bestLoop sim (normalize_for_matching o) used pdf 0 (none, 0) =
      (none, r)) :
    matchLoop sim pdf (o :: rest) used =
      { text := o } :: matchLoop sim pdf rest used := by
  rw [matchLoop, if_neg (by simp [h]), hb]

theorem usedBefore_zero (a : List (Option Nat)) : usedBefore a 0 = [] := rfl

theorem usedBefore_cons_none (a : List (Option Nat)) (i : Nat) :
    usedBefore (none :: a) (i + 1) = usedBefore a i := by
  simp [usedBefore, List.take_succ_cons]

theorem usedBefore_cons_some (j : Nat) (a : List (Option Nat)) (i : Nat) :
    usedBefore (some j :: a) (i + 1) = j :: usedBefore a i := by
  simp [usedBefore, List.take_succ_cons]

theorem matchLoop_texts (sim : String → String → ℚ) (pdf : List LineBox) :
    ∀ (ocr : List String) (used : List Nat),
      (matchLoop sim pdf ocr used).map LineBox.text = ocr := by
  intro ocr
  induction ocr with
  | nil => intro used; rw [matchLoop]; rfl
  | cons o rest ih =>
    intro used
    by_cases hblank : (pyStrip o.data).isEmpty = true
    · rw [matchLoop_cons_blank sim pdf o rest used hblank, List.map_cons, ih]
    · rw [Bool.not_eq_true] at hblank
      rcases hb : bestLoop sim (normalize_for_matching o) used pdf 0 (none, 0) with
        ⟨best, r⟩
      cases best with
      | some jb =>
        by_cases hr : (6:ℚ)/10 < r
        · rw [matchLoop_cons_hit sim pdf o rest used jb.1 jb.2 r hblank (by
              rw [hb]) hr, List.map_cons, ih]
        · rw [matchLoop_cons_low sim pdf o rest used jb.1 jb.2 r hblank (by
              rw [hb]) hr, List.map_cons, ih]
      | none =>
        rw [matchLoop_cons_none sim pdf o rest used r hblank hb, List.map_cons, ih]

theorem assignLoop_length (sim : String → String → ℚ) (pdf : List LineBox) :
    ∀ (ocr : List String) (used : List Nat),
      (assignLoop sim pdf ocr used).length = ocr.length := by
  intro ocr
  induction ocr with
  | nil => intro used; rw [assignLoop]; rfl
  | cons o rest ih =>
    intro used
    by_cases hblank : (pyStrip o.data).isEmpty = true
    · rw [assignLoop_cons_blank sim pdf o rest used hblank, List.length_cons, ih,
        List.length_cons]
    · rw [Bool.not_eq_true] at hblank
      rcases hb : bestLoop sim (normalize_for_matching o) used pdf 0 (none, 0) with
        ⟨best, r⟩
      cases best with
      | some jb =>
        by_cases hr : (6:ℚ)/10 < r
        · rw [assignLoop_cons_hit sim pdf o rest used jb.1 jb.2 r hblank (by
              rw [hb]) hr, List.length_cons, ih, List.length_cons]
        · rw [assignLoop_cons_low sim pdf o rest used jb.1 jb.2 r hblank (by
              rw [hb]) hr, List.length_cons, ih, List.length_cons]
      | none =>
        rw [assignLoop_cons_none sim pdf o rest used r hblank hb, List.length_cons,
          ih, List.length_cons]

theorem assignLoop_fresh (sim : String → String → ℚ) (pdf : List LineBox) :
    ∀ (ocr : List String) (used : List Nat) (i j : Nat),
      (assignLoop sim pdf ocr used).get? i = some (some j) → j ∉ used := by
  intro ocr
  induction ocr with
  | nil => intro used i j h; rw [assignLoop] at h; simp at h
  | cons o rest ih =>
    intro used i j h
    by_cases hblank : (pyStrip o.data).isEmpty = true
    · rw [assignLoop_cons_blank sim pdf o rest used hblank] at h
      cases i with
      | zero => simp at h
      | succ i' => exact ih used i' j (by simpa using h)
    · rw [Bool.not_eq_true] at hblank
      rcases hb : bestLoop sim (normalize_for_matching o) used pdf 0 (none, 0) with
        ⟨best, r⟩
      have hspec := bestLoop_spec sim (normalize_for_matching o) used pdf pdf 0 rfl
        none 0 (fun a b hab => absurd hab (by simp)) (fun _ => rfl)
        (fun k hk _ => absurd hk (Nat.not_lt_zero k))
      cases best with
      | some jb =>
        by_cases hr : (6:ℚ)/10 < r
        · rw [assignLoop_cons_hit sim pdf o rest used jb.1 jb.2 r hblank (by
            rw [hb]) hr] at h
          cases i with
          | zero =>
            have hjj : jb.1 = j := by simpa using h
            have hsp := (hspec.1 jb.1 jb.2 r (by rw [hb])).1
            exact hjj ▸ hsp
          | succ i' =>
            have hj := ih (jb.1 :: used) i' j (by simpa using h)
            exact fun hm => hj (List.mem_cons_of_mem _ hm)
        · rw [assignLoop_cons_low sim pdf o rest used jb.1 jb.2 r hblank (by
            rw [hb]) hr] at h
          cases i with
          | zero => simp at h
          | succ i' => exact ih used i' j (by simpa using h)
      | none =>
        rw [assignLoop_cons_none sim pdf o rest used r hblank hb] at h
        cases i with
        | zero => simp at h
        | succ i' => exact ih used i' j (by simpa using h)

theorem assignLoop_inj (sim : String → String → ℚ) (pdf : List LineBox) :
    ∀ (ocr : List String) (used : List Nat) (i1 i2 j : Nat),
      (assignLoop sim pdf ocr used).get? i1 = some (some j) →
      (assignLoop sim pdf ocr used).get? i2 = some (some j) → i1 = i2 := by
  intro ocr
  induction ocr with
  | nil => intro used i1 i2 j h1 h2; rw [assignLoop] at h1; simp at h1
  | cons o rest ih =>
    intro used i1 i2 j h1 h2
    by_cases hblank : (pyStrip o.data).isEmpty = true
    · rw [assignLoop_cons_blank sim pdf o rest used hblank] at h1 h2
      cases i1 with
      | zero => simp at h1
      | succ i1' =>
        cases i2 with
        | zero => simp at h2
        | succ i2' =>
          exact congrArg Nat.succ
            (ih used i1' i2' j (by simpa using h1) (by simpa using h2))
    · rw [Bool.not_eq_true] at hblank
      rcases hb : bestLoop sim (normalize_for_matching o) used pdf 0 (none, 0) with
        ⟨best, r⟩
      cases best with
      | some jb =>
        by_cases hr : (6:ℚ)/10 < r
        · rw [assignLoop_cons_hit sim pdf o rest used jb.1 jb.2 r hblank (by
            rw [hb]) hr] at h1 h2
          cases i1 with
          | zero =>
            cases i2 with
            | zero => rfl
            | succ i2' =>
              have hjj : jb.1 = j := by simpa using h1
              have hfr := assignLoop_fresh sim pdf rest (jb.1 :: used) i2' j
                (by simpa using h2)
              exact absurd (by rw [← hjj]; exact List.mem_cons_self jb.1 used) hfr
          | succ i1' =>
            cases i2 with
            | zero =>
              have hjj : jb.1 = j := by simpa using h2
              have hfr := assignLoop_fresh sim pdf rest (jb.1 :: used) i1' j
                (by simpa using h1)
              exact absurd (by rw [← hjj]; exact List.mem_cons_self jb.1 used) hfr
            | succ i2' =>
              exact congrArg Nat.succ
                (ih (jb.1 :: used) i1' i2' j (by simpa using h1) (by simpa using h2))
        · rw [assignLoop_cons_low sim pdf o rest used jb.1 jb.2 r hblank (by
            rw [hb]) hr] at h1 h2
          cases i1 with
          | zero => simp at h1
          | succ i1' =>
            cases i2 with
            | zero => simp at h2
            | succ i2' =>
              exact congrArg Nat.succ
                (ih used i1' i2' j (by simpa using h1) (by simpa using h2))
      | none =>
        rw [assignLoop_cons_none sim pdf o rest used r hblank hb] at h1 h2
        cases i1 with
        | zero => simp at h1
        | succ i1' =>
          cases i2 with
          | zero => simp at h2
          | succ i2' =>
            exact congrArg Nat.succ
              (ih used i1' i2' j (by simpa using h1) (by simpa using h2))

theorem align_index_spec (sim : String → String → ℚ) (pdf : List LineBox) :
    ∀ (ocr : List String) (used : List Nat) (i : Nat) (o : String),
      ocr.get? i = some o →
      (((pyStrip o.data).isEmpty = true →
         (assignLoop sim pdf ocr used).get? i = some none ∧
         (matchLoop sim pdf ocr used).get? i = some { text := o }) ∧
       (∀ j, (assignLoop sim pdf ocr used).get? i = some (some j) →
         (pyStrip o.data).isEmpty = false ∧ j < pdf.length ∧
         j ∉ usedBefore (assignLoop sim pdf ocr used) i ∧ j ∉ used ∧
         (matchLoop sim pdf ocr used).get? i =
           some { text := o,
                  is_bold := ((pdf.get? j).getD { text := "" }).is_bold,
                  is_italic := ((pdf.get? j).getD { text := "" }).is_italic } ∧
         (6:ℚ)/10 < ratioAt sim pdf o j ∧
         (∀ k, k < pdf.length →
           k ∉ usedBefore (assignLoop sim pdf ocr used) i → k ∉ used →
           ratioAt sim pdf o k ≤ ratioAt sim pdf o j)) ∧
       ((pyStrip o.data).isEmpty = false →
         (assignLoop sim pdf ocr used).get? i = some none →
         (matchLoop sim pdf ocr used).get? i = some { text := o } ∧
         (∀ k, k < pdf.length →
           k ∉ usedBefore (assignLoop sim pdf ocr used) i → k ∉ used →
           ratioAt sim pdf o k ≤ (6:ℚ)/10))) := by
  intro ocr
  induction ocr with
  | nil => intro used i o ho; simp at ho
  | cons o0 rest ih =>
    intro used i o ho
    by_cases hblank0 : (pyStrip o0.data).isEmpty = true
    · rw [assignLoop_cons_blank sim pdf o0 rest used hblank0,
        matchLoop_cons_blank sim pdf o0 rest used hblank0]
      cases i with
      | zero =>
        have ho0 : o0 = o := by simpa using ho
        subst ho0
        refine ⟨fun _ => ⟨rfl, rfl⟩, ?_, ?_⟩
        · intro j hj; simp at hj
        · intro hne _; exact absurd hblank0 (by simp [hne])
      | succ i' =>
        have hres := ih used i' o (by simpa using ho)
        simp only [List.get?_cons_succ, usedBefore_cons_none]
        exact hres
    · rw [Bool.not_eq_true] at hblank0
      rcases hb : bestLoop sim (normalize_for_matching o0) used pdf 0 (none, 0) with
        ⟨best, r⟩
      have hspec := bestLoop_spec sim (normalize_for_matching o0) used pdf pdf 0 rfl
        none 0 (fun a b hab => absurd hab (by simp)) (fun _ => rfl)
        (fun k hk _ => absurd hk (Nat.not_lt_zero k))
      cases best with
      | some jb =>
        obtain ⟨j0, b0⟩ := jb
        obtain ⟨hju, hjget, hjr, hjpos, hjmax⟩ := hspec.1 j0 b0 r (by rw [hb])
        by_cases hr : (6:ℚ)/10 < r
        · rw [assignLoop_cons_hit sim pdf o0 rest used j0 b0 r hblank0 hb hr,
            matchLoop_cons_hit sim pdf o0 rest used j0 b0 r hblank0 hb hr]
          cases i with
          | zero =>
            have ho0 : o0 = o := by simpa using ho
            subst ho0
            refine ⟨?_, ?_, ?_⟩
            · intro hbl; exact absurd hbl (by simp [hblank0])
            · intro j hj
              have hjj : j0 = j := by simpa using hj
              subst hjj
              have hjlen : j0 < pdf.length := by
                by_contra hge
                rw [List.get?_eq_none.mpr (le_of_not_lt hge)] at hjget
                exact Option.noConfusion hjget
              refine ⟨hblank0, hjlen, by simp [usedBefore], hju, ?_, ?_, ?_⟩
              · have hjget2 : pdf[j0]? = some b0 := by
                  rw [← List.get?_eq_getElem?]; exact hjget
                simp [hjget2]
              · have hra : ratioAt sim pdf o0 j0 = r := by
                  simp only [ratioAt, hjget, Option.getD_some]
                  exact hjr.symm
                rw [hra]; exact hr
              · intro k hk hk1 hk2
                have hle := hjmax k hk hk2
                simp only [ratioAt, hjget, Option.getD_some]
                rw [← hjr]
                exact hle
            · intro hne hnone; simp at hnone
          | succ i' =>
            have hres := ih (j0 :: used) i' o (by simpa using ho)
            simp only [List.get?_cons_succ, usedBefore_cons_some]
            refine ⟨hres.1, ?_, ?_⟩
            · intro j hj
              obtain ⟨q1, q2, q3, q4, q5, q6, q7⟩ := hres.2.1 j hj
              refine ⟨q1, q2, ?_, fun hm => q4 (List.mem_cons_of_mem _ hm), q5, q6, ?_⟩
              · intro hm
                rcases List.mem_cons.mp hm with hm | hm
                · exact q4 (by rw [hm]; exact List.mem_cons_self j0 used)
                · exact q3 hm
              · intro k hk hk1 hk2
                apply q7 k hk
                · intro hm; exact hk1 (List.mem_cons_of_mem _ hm)
                · intro hm
                  rcases List.mem_cons.mp hm with hm | hm
                  · exact hk1 (by rw [hm]; exact List.mem_cons_self j0 _)
                  · exact hk2 hm
            · intro hne hnone
              obtain ⟨q1, q2⟩ := hres.2.2 hne hnone
              refine ⟨q1, ?_⟩
              intro k hk hk1 hk2
              apply q2 k hk
              · intro hm; exact hk1 (List.mem_cons_of_mem _ hm)
              · intro hm
                rcases List.mem_cons.mp hm with hm | hm
                · exact hk1 (by rw [hm]; exact List.mem_cons_self j0 _)
                · exact hk2 hm
        · rw [assignLoop_cons_low sim pdf o0 rest used j0 b0 r hblank0 hb hr,
            matchLoop_cons_low sim pdf o0 rest used j0 b0 r hblank0 hb hr]
          cases i with
          | zero =>
            have ho0 : o0 = o := by simpa using ho
            subst ho0
            refine ⟨?_, ?_, ?_⟩
            · intro hbl; exact absurd hbl (by simp [hblank0])
            · intro j hj; simp at hj
            · intro _ _
              refine ⟨rfl, ?_⟩
              intro k hk hk1 hk2
              have hle := hjmax k hk hk2
              have hr' : r ≤ (6:ℚ)/10 := le_of_not_lt hr
              simp only [ratioAt]
              exact le_trans hle hr'
          | succ i' =>
            have hres := ih used i' o (by simpa using ho)
            simp only [List.get?_cons_succ, usedBefore_cons_none]
            exact hres
      | none =>
        have hspec2 := hspec.2 r hb
        rw [assignLoop_cons_none sim pdf o0 rest used r hblank0 hb,
          matchLoop_cons_none sim pdf o0 rest used r hblank0 hb]
        cases i with
        | zero =>
          have ho0 : o0 = o := by simpa using ho
          subst ho0
          refine ⟨?_, ?_, ?_⟩
          · intro hbl; exact absurd hbl (by simp [hblank0])
          · intro j hj; simp at hj
          · intro _ _
            refine ⟨rfl, ?_⟩
            intro k hk hk1 hk2
            have hle := hspec2 k hk hk2
            simp only [ratioAt]
            exact le_trans hle (by norm_num)
        | succ i' =>
          have hres := ih used i' o (by simpa using ho)
          simp only [List.get?_cons_succ, usedBefore_cons_none]
          exact hres

/-- C1: the aligner emits exactly one output box per OCR line, in input
order, carrying that OCR line's text; a PDF line's formatting flags are
transferred exactly when its index is assigned, which happens only for a
non-blank OCR line, an unconsumed PDF index whose similarity ratio
exceeds 0.6 and is maximal among the not-yet-consumed PDF lines;
unmatched (including blank) OCR lines get default non-italic, non-bold
formatting, for an unmatched non-blank line no unconsumed PDF line's
ratio exceeds 0.6, and each PDF index is consumed at most once. -/
theorem aligner_claims :
    ∀ (sim : String → String → ℚ) (ocr_lines : List String)
      (pdf_line_boxes : List LineBox),
      (match_ocr_to_pdf_lines sim ocr_lines pdf_line_boxes).map LineBox.text =
        ocr_lines ∧
      (matchAssign sim ocr_lines pdf_line_boxes).length = ocr_lines.length ∧
      (∀ i o, ocr_lines.get? i = some o →
        (((pyStrip o.data).isEmpty = true →
           (matchAssign sim ocr_lines pdf_line_boxes).get? i = some none ∧
           (match_ocr_to_pdf_lines sim ocr_lines pdf_line_boxes).get? i =
             some { text := o, is_bold := false, is_italic := false }) ∧
         (∀ j, (matchAssign sim ocr_lines pdf_line_boxes).get? i =
             some (some j) →
           (pyStrip o.data).isEmpty = false ∧
           j < pdf_line_boxes.length ∧
           j ∉ usedBefore (matchAssign sim ocr_lines pdf_line_boxes) i ∧
           (match_ocr_to_pdf_lines sim ocr_lines pdf_line_boxes).get? i =
             some { text := o,
                    is_bold :=
                      ((pdf_line_boxes.get? j).getD { text := "" }).is_bold,
                    is_italic :=
                      ((pdf_line_boxes.get? j).getD { text := "" }).is_italic } ∧
           (6:ℚ)/10 < ratioAt sim pdf_line_boxes o j ∧
           (∀ k, k < pdf_line_boxes.length →
             k ∉ usedBefore (matchAssign sim ocr_lines pdf_line_boxes) i →
             ratioAt sim pdf_line_boxes o k ≤ ratioAt sim pdf_line_boxes o j)) ∧
         ((pyStrip o.data).isEmpty = false →
           (matchAssign sim ocr_lines pdf_line_boxes).get? i = some none →
           (match_ocr_to_pdf_lines sim ocr_lines pdf_line_boxes).get? i =
             some { text := o, is_bold := false, is_italic := false } ∧
           (∀ k, k < pdf_line_boxes.length →
             k ∉ usedBefore (matchAssign sim ocr_lines pdf_line_boxes) i →
             ratioAt sim pdf_line_boxes o k ≤ (6:ℚ)/10)))) ∧
      (∀ i1 i2 j,
        (matchAssign sim ocr_lines pdf_line_boxes).get? i1 = some (some j) →
        (matchAssign sim ocr_lines pdf_line_boxes).get? i2 = some (some j) →
        i1 = i2) := by
  intro sim ocr pdf
  refine ⟨matchLoop_texts sim pdf ocr [], assignLoop_length sim pdf ocr [], ?_,
    fun i1 i2 j h1 h2 => assignLoop_inj sim pdf ocr [] i1 i2 j h1 h2⟩
  intro i o ho
  obtain ⟨hB, hH, hM⟩ := align_index_spec sim pdf ocr [] i o ho
  refine ⟨hB, ?_, ?_⟩
  · intro j hj
    obtain ⟨q1, q2, q3, q4, q5, q6, q7⟩ := hH j hj
    exact ⟨q1, q2, q3, q5, q6, fun k hk hk1 => q7 k hk hk1 (by simp)⟩
  · intro hne hnone
    obtain ⟨m1, m2⟩ := hM hne hnone
    exact ⟨m1, fun k hk hk1 => m2 k hk hk1 (by simp)⟩

-- -----------------------------------------------------------------
-- Claim C3: shot-type variant folding.
-- -----------------------------------------------------------------

theorem map_name_set_same (ws : List Weapon) (i : Nat) (bw w' : Weapon)
    (hget : ws.get? i = some bw) (hname : w'.name = bw.name) :
    (ws.set i w').map Weapon.name = ws.map Weapon.name := by
  induction ws generalizing i with
  | nil => exact absurd hget (by simp)
  | cons a rest ih =>
    cases i with
    | zero =>
      simp only [List.get?] at hget
      injection hget with hget
      subst hget
      simp [List.set, hname]
    | succ n =>
      simp only [List.set, List.map_cons]
      rw [ih n (by simpa using hget)]

theorem set_concat_length (l : List Weapon) (a b : Weapon) :
    (l ++ [a]).set l.length b = l ++ [b] := by
  induction l with
  | nil => rfl
  | cons x t ih => simp [List.set, ih]

theorem splitOnce_fst_not_mem (sep : Char) :
    ∀ (s p1 p2 : Chars), splitOnce sep s = some (p1, p2) → sep ∉ p1 := by
  intro s
  induction s with
  | nil => intro p1 p2 h; exact absurd h (by simp [splitOnce])
  | cons c rest ih =>
    intro p1 p2 h
    by_cases hc : c = sep
    · rw [splitOnce, if_pos hc] at h
      injection h with h'
      rw [show p1 = [] from (Prod.mk.injEq _ _ _ _ ▸ h').1.symm]
      simp
    · rw [splitOnce, if_neg hc] at h
      rw [Option.map_eq_some'] at h
      obtain ⟨q, hq1, hq2⟩ := h
      have h1 : p1 = c :: q.1 := (Prod.mk.injEq _ _ _ _ ▸ hq2).1.symm
      rw [h1]
      intro hmem
      rcases List.mem_cons.mp hmem with h2 | h2
      · exact hc h2.symm
      · exact ih q.1 q.2 (by rw [hq1]) h2

theorem pyStrip_mem {x : Char} {l : Chars} (h : x ∈ pyStrip l) : x ∈ l := by
  unfold pyStrip rstripBy lstripBy at h
  rw [List.mem_reverse] at h
  have h2 := (List.dropWhile_sublist _).mem h
  rw [List.mem_reverse] at h2
  exact (List.dropWhile_sublist _).mem h2

theorem not_startsWith_gt_of_splitOnce {s p1 p2 : Chars}
    (h : splitOnce '>' s = some (p1, p2)) :
    startsWith ">".data (pyStrip p1) = false := by
  have hnm := splitOnce_fst_not_mem '>' s p1 p2 h
  cases hps : pyStrip p1 with
  | nil => rfl
  | cons c t =>
    have hc : c ∈ p1 := pyStrip_mem (by rw [hps]; exact List.mem_cons_self c t)
    have hne : ('>' == c) = false :=
      beq_eq_false_iff_ne.mpr (fun he => hnm (he ▸ hc))
    simp [startsWith, List.isPrefixOf, hne]

set_option maxHeartbeats 4000000 in
theorem weaponStep_names (lines : List String) (lbs : List LineBox)
    (descCat : Option String) (profileIdx : Nat) (pcaps : Caps)
    (title : String) (weapons : List Weapon) (embedded : Option (List String)) :
    ((weaponStep lines lbs descCat profileIdx pcaps title weapons embedded).2.map
        Weapon.name = weapons.map Weapon.name) ∨
    (∃ nm, (weaponStep lines lbs descCat profileIdx pcaps title weapons
        embedded).2.map Weapon.name = weapons.map Weapon.name ++ [nm] ∧
      (startsWith ">".data nm.data = false ∨ weapons = [])) := by
  unfold weaponStep
  dsimp only
  split
  · left; rfl
  · split
    · split
      · -- splitOnce '>' title2 = some (p1, p2)
        rename_i hC y p1 p2 hsp
        generalize hB : List.foldl
            (fun acc q => if q.2.name = { data := pyStrip p1 } then some q.1 else acc)
            none weapons.enum = bi
        cases bi with
        | some i =>
          dsimp only
          split
          · rename_i bw hget
            left
            exact map_name_set_same weapons i bw _ hget rfl
          · left; rfl
        | none =>
          dsimp only
          rw [List.get?_concat_length]
          dsimp only
          right
          refine ⟨String.mk (pyStrip p1), ?_, ?_⟩
          · rw [set_concat_length]
            simp only [List.map_append, List.map_cons, List.map_nil]
          · exact Or.inl (not_startsWith_gt_of_splitOnce hsp)
      · rename_i hC y hsp
        dsimp only
        simp only [List.map_append, List.map_cons, List.map_nil]
        exact Or.inr ⟨_, rfl, Or.inl (Bool.eq_false_iff.mpr hC.2)⟩
    · split
      · split
        · left; rfl
        · rename_i hC1 hC2 bidx hbidx
          split
          · rename_i bw hget
            left
            exact map_name_set_same weapons bidx bw _ hget rfl
          · left; rfl
      · rename_i hC1 hC2
        dsimp only
        simp only [List.map_append, List.map_cons, List.map_nil]
        refine Or.inr ⟨_, rfl, ?_⟩
        by_cases hemp : weapons = []
        · exact Or.inr hemp
        · refine Or.inl (Bool.eq_false_iff.mpr (fun hst => hC2 ⟨hst, ?_⟩))
          simp [List.isEmpty_iff, hemp]

theorem resolveUnnamed_names (weapons : List Weapon) :
    (resolveUnnamed weapons).2.map Weapon.name = weapons.map Weapon.name := by
  unfold resolveUnnamed
  split
  · rename_i lw hlast
    split
    · dsimp only
      split
      · dsimp only
        rw [List.map_append]
        simp only [List.map_cons, List.map_nil]
        conv_rhs => rw [← List.dropLast_append_getLast? lw hlast]
        rw [List.map_append]
        simp only [List.map_cons, List.map_nil]
      · rfl
    · rfl
  · rfl

theorem drop_one_append_singleton {α : Type} (l : List α) (a : α) (P : α → Prop)
    (hl : ∀ x ∈ l.drop 1, P x) (ha : P a) : ∀ x ∈ (l ++ [a]).drop 1, P x := by
  cases l with
  | nil => intro x hx; simp at hx
  | cons b t =>
    intro x hx
    rw [List.cons_append, List.drop_succ_cons, List.drop_zero] at hx
    rcases List.mem_append.mp hx with h1 | h1
    · exact hl x (by simpa using h1)
    · simp at h1; subst h1; exact ha

theorem tail_no_gt_push {res ws : List Weapon}
    (hout : res.map Weapon.name = ws.map Weapon.name ∨
      ∃ nm, res.map Weapon.name = ws.map Weapon.name ++ [nm] ∧
        (startsWith ">".data nm.data = false ∨ ws = []))
    (hinv : ∀ nm ∈ (ws.map Weapon.name).drop 1, startsWith ">".data nm.data = false) :
    ∀ nm ∈ (res.map Weapon.name).drop 1, startsWith ">".data nm.data = false := by
  rcases hout with heq | ⟨nm, heq, hnm⟩
  · rw [heq]; exact hinv
  · rw [heq]
    rcases hnm with hf | hempty
    · exact drop_one_append_singleton _ nm _ hinv hf
    · subst hempty
      intro x hx
      simp at hx


set_option maxHeartbeats 4000000 in
theorem weaponLoopGo_tail_no_gt (lines : List String) (lbs : List LineBox)
    (descCat : Option String) :
    ∀ (fuel cursor : Nat) (weapons : List Weapon) (embedded : Option (List String)),
      (∀ nm ∈ (weapons.map Weapon.name).drop 1,
        startsWith ">".data nm.data = false) →
      ∀ nm ∈ ((weaponLoopGo lines lbs descCat fuel cursor weapons embedded).map
          Weapon.name).drop 1, startsWith ">".data nm.data = false := by
  intro fuel
  induction fuel with
  | zero =>
    intro cursor weapons embedded hinv
    rw [weaponLoopGo]
    exact hinv
  | succ n ih =>
    intro cursor weapons embedded hinv
    rw [weaponLoopGo]
    split
    · dsimp only
      split
      · split
        · split
          · exact ih _ _ _ (tail_no_gt_push (weaponStep_names _ _ _ _ _ _ _ _)
              (by rw [resolveUnnamed_names]; exact hinv))
          · exact ih _ _ _ hinv
        · exact ih _ _ _ hinv
      · split
        · split
          · split
            · exact ih _ _ _ hinv
            · exact ih _ _ _ (tail_no_gt_push (weaponStep_names _ _ _ _ _ _ _ _) hinv)
          · exact hinv
        · exact ih _ _ _ hinv
    · exact hinv
theorem weaponLoop_tail_no_gt (lines : List String) (lbs : List LineBox)
    (descCat : Option String) (cursor : Nat) :
    ∀ w ∈ (weaponLoop lines lbs descCat cursor [] none).drop 1,
      startsWith ">".data w.name.data = false := by
  intro w hw
  have hmem : w.name ∈ ((weaponLoopGo lines lbs descCat (lines.length + 1)
      cursor [] none).map Weapon.name).drop 1 := by
    rw [← List.map_drop]
    exact List.mem_map_of_mem _ hw
  exact weaponLoopGo_tail_no_gt lines lbs descCat (lines.length + 1) cursor [] none
    (by intro nm hnm; simp at hnm) w.name hmem

theorem parse_tail_no_gt (nfkd : String → String) (card_text : String)
    (lbs : List LineBox) (u : UnitRec)
    (h : parse_card_text nfkd card_text lbs = some (some u)) :
    ∀ w ∈ u.weapons.drop 1, startsWith ">".data w.name.data = false := by
  unfold parse_card_text at h
  dsimp only at h
  split at h
  · exact absurd (Option.some.inj h) (fun hh => Option.noConfusion hh)
  · split at h
    · exact absurd (Option.some.inj h) (fun hh => Option.noConfusion hh)
    · split at h
      · exact absurd (Option.some.inj h) (fun hh => Option.noConfusion hh)
      · exact Option.noConfusion h
      · have h2 := Option.some.inj (Option.some.inj h)
        subst h2
        dsimp only
        intro w hw
        exact weaponLoop_tail_no_gt _ _ _ _ w hw

/-- C3 counterexample: in the card whose first weapon line is the
`>`-prefixed ammunition variant `"> 152mm HEAT"` with no prior weapon,
the variant is emitted as a top-level weapon (the only one), its name
keeping the leading `>`. -/
theorem shot_variant_top_level_counterexample :
    (parse_card_text id "" variantFirstCard).map
        (Option.map (fun u => u.weapons.map Weapon.name)) =
      some (some ["> 152mm HEAT"]) ∧
    startsWith ">".data "> 152mm HEAT".data = true := ⟨by decide, by decide⟩

/-- C3 (amended): the mid-line ammunition variant of the spec's example is
folded under its parent (one top-level weapon `"2K52 152mm Howitzer"` with
shot type `"152mm HEAT"`), a `>`-prefixed weapon line following a
caliber-matched base weapon is folded onto it as a shot type, and in every
unit record produced by `parse_card_text` no weapon after the first has a
name beginning with `>` — but the first weapon can be a `>`-variant when
no prior weapon exists to fold it onto. -/
theorem shot_type_folding_claims :
    ((parse_card_text id "" howitzerFoldCard).map (Option.map (fun u =>
        (u.weapons.map Weapon.name,
         u.weapons.map (fun w => w.shotTypes.map ShotType.name)))) =
      some (some (["2K52 152mm Howitzer"], [["152mm HEAT"]]))) ∧
    ((parse_card_text id "" variantFoldCard).map (Option.map (fun u =>
        (u.weapons.map Weapon.name,
         u.weapons.map (fun w => w.shotTypes.map ShotType.name)))) =
      some (some (["2K52 152mm Gun"], [["152mm HEAT"]]))) ∧
    (∀ (nfkd : String → String) (card_text : String) (lbs : List LineBox)
        (u : UnitRec), parse_card_text nfkd card_text lbs = some (some u) →
      ∀ w ∈ u.weapons.drop 1, startsWith ">".data w.name.data = false) :=
  ⟨by decide, by decide,
   fun nfkd card_text lbs u h => parse_tail_no_gt nfkd card_text lbs u h⟩

/-- Witness for the amended C2 at the concrete token `"3"`. -/
theorem trailing_plus_convention_witness :
    ("3".data.all isPyDigit = true ∧ "3".data ≠ []) ∧
    (parse_acc (String.mk ("3".data ++ ['+'])) =
        some (.single (.num (toNatDigits "3".data))) ∧
      parse_strength (String.mk ("3".data ++ ['+'])) =
        some (.str (String.mk ("3".data ++ ['+'])))) :=
  ⟨⟨by decide, by decide⟩,
   trailing_plus_convention "3".data (by decide) (by decide)⟩

end Rygo
